import Mathlib

/-!
# Cloud-init resource of the libvirt provider: fingerprinting and lifecycle

A shallow embedding of `libvirt/resource_cloud_init.go`.

* Go strings are byte sequences, so a Go `string` (and a `[]byte`) is a
  `List Byte` with `Byte = Fin 256`.
* The three standard-library routines the file calls
  (`base64.StdEncoding.DecodeString`, `sha1.Sum`, `hex.EncodeToString`) are
  transcribed from the Go standard library (`encoding/base64`, `crypto/sha1`,
  `encoding/hex`), machine words being naturals reduced modulo `2 ^ 32`.
* `schema.ResourceData` is a record holding the id, the attribute map and the
  partial-state bookkeeping; the backend calls defined in other files of the
  package (`newCloudInitDef`, `CreateAndUpload`, `newCloudInitDefFromRemoteISO`)
  are parameters.
-/

namespace CloudInit

/-! ## Bytes and strings -/

/-- A Go `byte`. -/
abbrev Byte := Fin 256

/-- A Go `string` or `[]byte`: a finite sequence of bytes. -/
abbrev GoString := List Byte

/-- The bytes of an ASCII literal. -/
def str (s : String) : GoString := s.data.map (fun c => Fin.ofNat c.toNat)

/-- Go's conversion `byte(x)` of an unsigned integer: truncation to 8 bits. -/
def toByte (x : Nat) : Byte := ⟨x % 256, Nat.mod_lt x (by decide)⟩

/-- Line feed. -/
def LF : Byte := 10

/-- Carriage return. -/
def CR : Byte := 13

/-- The padding character `=` of `base64.StdEncoding`. -/
def padChar : Byte := 61

/-! ## `encoding/base64`, standard padded encoding -/

/-- The alphabet `encodeStd` of `encoding/base64`. -/
def encodeStd : GoString :=
  str "ABCDEFGHIJKLMNOPQRSTUVWXYZabcdefghijklmnopqrstuvwxyz0123456789+/"

/-- The table `enc.decodeMap`: filled with `0xff`, then `decodeMap[encoder[i]] = i`. -/
def decodeMap (c : Byte) : Nat :=
  if encodeStd.indexOf c < 64 then encodeStd.indexOf c else 0xff

/-- The table lookup `enc.encode[i]` for a 6-bit index. -/
def encodeChar (i : Nat) : Byte := encodeStd.getD i 0

/-- The error type `base64.CorruptInputError`: the offset of the offending byte. -/
structure CorruptInputError where
  offset : Int
deriving DecidableEq, Repr

/-- What one call of `decodeQuantum` returns, `(nsi, n, err)`, with the bytes it
wrote to `dst[:n]` and the input left after position `nsi`. -/
structure Quantum where
  rest : GoString
  nsi : Int
  out : GoString
  err : Option CorruptInputError
deriving DecidableEq, Repr

/-- The loop `for si < len(src) && (src[si] == '\n' || src[si] == '\r') { si++ }`. -/
def skipNewlines : GoString → Int → GoString × Int
  | [], si => ([], si)
  | c :: rest, si =>
    if c = LF ∨ c = CR then skipNewlines rest (si + 1) else (c :: rest, si)

/-- The tail of `decodeQuantum`, "Convert 4x 6bit source bytes into 3 bytes":
the first `dlen - 1` bytes of the 24-bit value (`enc.strict` is false for
`StdEncoding`, so trailing bits are not checked). -/
def quantumBytes (d0 d1 d2 d3 : Nat) (dlen : Nat) : GoString :=
  let val := d0 <<< 18 ||| d1 <<< 12 ||| d2 <<< 6 ||| d3
  ([toByte (val >>> 16), toByte (val >>> 8), toByte (val >>> 0)]).take (dlen - 1)

/-- The write `dbuf[j] = out` into the four-slot buffer. -/
def setSlot (dbuf : Nat × Nat × Nat × Nat) (j : Nat) (out : Nat) : Nat × Nat × Nat × Nat :=
  match j with
  | 0 => (out, dbuf.2.1, dbuf.2.2.1, dbuf.2.2.2)
  | 1 => (dbuf.1, out, dbuf.2.2.1, dbuf.2.2.2)
  | 2 => (dbuf.1, dbuf.2.1, out, dbuf.2.2.2)
  | _ => (dbuf.1, dbuf.2.1, dbuf.2.2.1, out)

/-- The end of the padding branch of `decodeQuantum`: skip newlines, flag
trailing garbage, and convert the `dlen = j` collected characters. -/
def finishPadded (rest : GoString) (si : Int) (dbuf : Nat × Nat × Nat × Nat) (j : Nat) :
    Quantum :=
  let p := skipNewlines rest si
  let err := if p.1 ≠ [] then some (CorruptInputError.mk p.2) else none
  ⟨p.1, p.2, quantumBytes dbuf.1 dbuf.2.1 dbuf.2.2.1 dbuf.2.2.2 j, err⟩

/-- The loop `for j := 0; j < len(dbuf); j++` of `decodeQuantum`, entered with
`j` characters already in `dbuf`, `src` being the input from position `si` on. -/
def decodeQuantumLoop : GoString → Int → Nat → Nat × Nat × Nat × Nat → Quantum
  | [], si, j, _ =>
    -- len(src) == si: clean end only before the first character of a quantum
    if j = 0 then ⟨[], si, [], none⟩
    else ⟨[], si, [], some ⟨si - j⟩⟩
  | c :: rest, si, j, dbuf =>
    let si1 := si + 1
    if decodeMap c ≠ 0xff then
      if j + 1 < 4 then decodeQuantumLoop rest si1 (j + 1) (setSlot dbuf j (decodeMap c))
      else
        let d := setSlot dbuf j (decodeMap c)
        ⟨rest, si1, quantumBytes d.1 d.2.1 d.2.2.1 d.2.2.2 4, none⟩
    else if c = LF ∨ c = CR then decodeQuantumLoop rest si1 j dbuf
    else if c ≠ padChar then ⟨rest, si1, [], some ⟨si1 - 1⟩⟩
    else
      match j with
      | 0 => ⟨rest, si1, [], some ⟨si1 - 1⟩⟩
      | 1 => ⟨rest, si1, [], some ⟨si1 - 1⟩⟩
      | 2 =>
        -- "==" is expected, the first "=" is already consumed
        match skipNewlines rest si1 with
        | ([], si2) => ⟨[], si2, [], some ⟨si2⟩⟩
        | (c2 :: rest2, si2) =>
          if c2 ≠ padChar then ⟨c2 :: rest2, si2, [], some ⟨si2 - 1⟩⟩
          else finishPadded rest2 (si2 + 1) dbuf j
      | _ => finishPadded rest si1 dbuf j

/-- The routine `(enc *Encoding) decodeQuantum(dst, src, si)` -/
def decodeQuantum (src : GoString) (si : Int) : Quantum :=
  decodeQuantumLoop src si 0 (0, 0, 0, 0)

/-- The loop `for si < len(src)` of `(enc *Encoding) Decode`, one quantum per
iteration, returning `(dst[:n], err)`. The 8- and 4-character fast paths of
`Decode` compute the same quanta and fall back to `decodeQuantum`; they are
not modelled. Every iteration consumes input, so `fuel = len(src)` iterations
are enough (`decodeLoop_fuel`). -/
def decodeLoop : Nat → GoString → Int → GoString → GoString × Option CorruptInputError
  | 0, _, _, acc => (acc, none)
  | fuel + 1, src, si, acc =>
    if src = [] then (acc, none)
    else
      let q := decodeQuantum src si
      if q.err ≠ none then (acc ++ q.out, q.err)
      else decodeLoop fuel q.rest q.nsi (acc ++ q.out)

/-- The call `base64.StdEncoding.DecodeString(s)`, returning `(dbuf[:n], err)`. -/
def DecodeString (s : GoString) : GoString × Option CorruptInputError :=
  decodeLoop s.length s 0 []

/-- The call `base64.StdEncoding.EncodeToString(src)`: every 3 bytes give 4
characters; a final block of 1 or 2 bytes gives 2 or 3 characters and `=` padding. -/
def EncodeToString : GoString → GoString
  | [] => []
  | [a] =>
    let val := a.val <<< 16
    [encodeChar (val >>> 18 &&& 0x3f), encodeChar (val >>> 12 &&& 0x3f), padChar, padChar]
  | [a, b] =>
    let val := a.val <<< 16 ||| b.val <<< 8
    [encodeChar (val >>> 18 &&& 0x3f), encodeChar (val >>> 12 &&& 0x3f),
      encodeChar (val >>> 6 &&& 0x3f), padChar]
  | a :: b :: c :: rest =>
    let val := a.val <<< 16 ||| b.val <<< 8 ||| c.val
    encodeChar (val >>> 18 &&& 0x3f) :: encodeChar (val >>> 12 &&& 0x3f) ::
      encodeChar (val >>> 6 &&& 0x3f) :: encodeChar (val &&& 0x3f) :: EncodeToString rest

/-! ## `encoding/hex` -/

/-- The table `hextable` of `encoding/hex`. -/
def hextable : GoString := str "0123456789abcdef"

/-- The call `hex.EncodeToString(src)`: `hextable[v>>4]`, `hextable[v&0x0f]` per byte. -/
def hexEncodeToString : GoString → GoString
  | [] => []
  | v :: rest =>
    hextable.getD (v.val >>> 4) 0 :: hextable.getD (v.val &&& 0x0f) 0 :: hexEncodeToString rest

/-! ## `crypto/sha1` -/

/-- The call `bits.RotateLeft32(x, k)` on a 32-bit word. -/
def rotateLeft32 (x k : Nat) : Nat := (x <<< k ||| x >>> (32 - k)) % 2 ^ 32

/-- The state of `blockGeneric` inside one chunk: the 16-word window `w` and
the working variables `a, b, c, d, e`. -/
structure Round where
  w : List Nat
  a : Nat
  b : Nat
  c : Nat
  d : Nat
  e : Nat

/-- Iteration `i` of the four 20-iteration loops of `blockGeneric`; they
differ in the computation of `f` and the choice of `_K0 .. _K3`, and from
`i = 16` on the window is extended first. Additions are `uint32` additions. -/
def sha1Round (s : Round) (i : Nat) : Round :=
  let w :=
    if i < 16 then s.w
    else
      let tmp := s.w.getD ((i - 3) &&& 0xf) 0 ^^^ s.w.getD ((i - 8) &&& 0xf) 0 ^^^
        s.w.getD ((i - 14) &&& 0xf) 0 ^^^ s.w.getD (i &&& 0xf) 0
      s.w.set (i &&& 0xf) (rotateLeft32 tmp 1)
  let f :=
    if i < 20 then s.b &&& s.c ||| (s.b ^^^ 0xffffffff) &&& s.d
    else if i < 40 then s.b ^^^ s.c ^^^ s.d
    else if i < 60 then ((s.b ||| s.c) &&& s.d) ||| (s.b &&& s.c)
    else s.b ^^^ s.c ^^^ s.d
  let k :=
    if i < 20 then 0x5A827999
    else if i < 40 then 0x6ED9EBA1
    else if i < 60 then 0x8F1BBCDC
    else 0xCA62C1D6
  let t := (rotateLeft32 s.a 5 + f + s.e + w.getD (i &&& 0xf) 0 + k) % 2 ^ 32
  ⟨w, t, s.a, rotateLeft32 s.b 30, s.c, s.d⟩

/-- The big-endian load `uint32(p[j])<<24 | uint32(p[j+1])<<16 | uint32(p[j+2])<<8 | uint32(p[j+3])`
of the 16 words of a 64-byte chunk. -/
def loadWords (p : GoString) : List Nat :=
  (List.range 16).map fun i =>
    (p.getD (4 * i) 0).val <<< 24 ||| (p.getD (4 * i + 1) 0).val <<< 16 |||
      (p.getD (4 * i + 2) 0).val <<< 8 ||| (p.getD (4 * i + 3) 0).val

/-- One chunk of `blockGeneric`: 80 rounds from the chaining value `h`, then
`h0 += a` and so on. -/
def sha1Block (h : Nat × Nat × Nat × Nat × Nat) (p : GoString) : Nat × Nat × Nat × Nat × Nat :=
  let s := (List.range 80).foldl sha1Round ⟨loadWords p, h.1, h.2.1, h.2.2.1, h.2.2.2.1, h.2.2.2.2⟩
  ((h.1 + s.a) % 2 ^ 32, (h.2.1 + s.b) % 2 ^ 32, (h.2.2.1 + s.c) % 2 ^ 32,
    (h.2.2.2.1 + s.d) % 2 ^ 32, (h.2.2.2.2 + s.e) % 2 ^ 32)

/-- The padding `checkSum` writes: a `0x80` byte, zeros up to 56 bytes modulo
64, and the length in bits as a big-endian `uint64`. -/
def sha1Padding (len : Nat) : GoString :=
  let t := if len % 64 < 56 then 56 - len % 64 else 64 + 56 - len % 64
  let bits := (len <<< 3) % 2 ^ 64
  (0x80 : Byte) :: List.replicate (t - 1) (0 : Byte) ++
    (List.range 8).map fun i => toByte (bits >>> (8 * (7 - i)))

/-- The big-endian store `binary.BigEndian.PutUint32`. -/
def putUint32 (x : Nat) : GoString :=
  [toByte (x >>> 24), toByte (x >>> 16), toByte (x >>> 8), toByte x]

/-- The call `sha1.Sum(data)`: the 20-byte digest of `data`. -/
def sha1Sum (data : GoString) : GoString :=
  let msg := data ++ sha1Padding data.length
  let h := (List.range (msg.length / 64)).foldl
    (fun h k => sha1Block h ((msg.drop (64 * k)).take 64))
    (0x67452301, 0xEFCDAB89, 0x98BADCFE, 0x10325476, 0xC3D2E1F0)
  putUint32 h.1 ++ putUint32 h.2.1 ++ putUint32 h.2.2.1 ++ putUint32 h.2.2.2.1 ++
    putUint32 h.2.2.2.2

/-! ## `resource_cloud_init.go`: the fingerprint -/

/-- The function `userDataHashSum`: the hex SHA-1 of the base64-decoded value,
or of the raw bytes when decoding reports an error. -/
def userDataHashSum (user_data : GoString) : GoString :=
  let r := DecodeString user_data
  let v := if r.2 ≠ none then user_data else r.1
  hexEncodeToString (sha1Sum v)

/-- The function `userDataDecode` -/
def userDataDecode (user_data : GoString) : GoString :=
  if user_data ≠ [] then
    let r := DecodeString user_data
    if r.2 = none then r.1 else user_data
  else user_data

/-- A dynamically typed Go value `interface{}`, as far as `StateFunc` inspects it. -/
inductive GoValue where
  | string (s : GoString)
  | other

/-- The `StateFunc` of the `user_data` attribute: the fingerprint of a string,
the empty string for any other type. -/
def userDataStateFunc (v : GoValue) : GoString :=
  match v with
  | .string s => userDataHashSum s
  | .other => []

/-! ## `helper/schema`: the resource data -/

/-- A Go `error`, identified by its message. -/
structure GoError where
  msg : GoString
deriving DecidableEq

/-- The keys of the resource's `Schema` map. -/
def schemaKeys : List String :=
  ["name", "pool", "local_hostname", "ssh_authorized_key", "volid", "user_data_path",
    "user_data"]

/-- The `Default` of each schema entry that declares one. -/
def schemaDefault (key : String) : Option GoString :=
  if key = "pool" then some (str "default")
  else if key = "volid" then some (str "cidata")
  else if key = "user_data_path" then some (str "user-data")
  else if key = "user_data" then some []
  else none

/-- The `schema.ResourceData` handed to the CRUD functions: the id, the string
attributes that are set, and the partial-state mode with its key set. -/
structure ResourceData where
  id : GoString
  attrs : String → Option GoString
  partialMode : Bool
  partialMap : List String

namespace ResourceData

/-- The call `d.Get(key)` for a string attribute: the value that is set, else
the schema default, else the zero value `""`. -/
def Get (d : ResourceData) (key : String) : GoString :=
  match d.attrs key with
  | some v => v
  | none => (schemaDefault key).getD []

/-- The call `d.GetOk(key)`: the value, and whether it exists and differs from
the zero value of its type. -/
def GetOk (d : ResourceData) (key : String) : GoString × Bool :=
  let exists_ := (d.attrs key).isSome || (schemaDefault key).isSome
  (d.Get key, exists_ && decide (d.Get key ≠ []))

/-- The call `d.Set(key, value)`: writes a key of the schema; for any other key
it returns an error, which every caller here drops, and writes nothing. -/
def Set (d : ResourceData) (key : String) (value : GoString) : ResourceData :=
  if key ∈ schemaKeys then
    { d with attrs := fun k => if k = key then some value else d.attrs k }
  else d

/-- The call `d.SetId(v)` -/
def SetId (d : ResourceData) (v : GoString) : ResourceData := { d with id := v }

/-- The call `d.Id()` -/
def Id (d : ResourceData) : GoString := d.id

/-- The call `d.Partial(enable)`: switches partial-state mode, clearing the key set
when it is switched off. -/
def Partial (d : ResourceData) (enable : Bool) : ResourceData :=
  { d with partialMode := enable, partialMap := if enable then d.partialMap else [] }

/-- The call `d.SetPartial(k)`: records `k` when partial-state mode is on. -/
def SetPartial (d : ResourceData) (k : String) : ResourceData :=
  if d.partialMode then { d with partialMap := k :: d.partialMap } else d

end ResourceData

/-! ## The cloud-init definition and the backend -/

/-- Modelled from the spec: the `Metadata` part of `defCloudInit`, declared in
another file of the package (§3, `metadata.localHostname`, and the instance id
of §4.3). -/
structure Metadata where
  LocalHostname : GoString
  InstanceID : GoString
deriving DecidableEq

/-- Modelled from the spec: the `UserData` part of `defCloudInit`, declared in
another file of the package (§3, `userData.sshAuthorizedKeys`). -/
structure UserData where
  SSHAuthorizedKeys : List GoString
deriving DecidableEq

/-- Modelled from the spec: the struct `defCloudInit`, declared in another file
of the package; the fields are those of §3 of the spec, under the names the
functions below use. -/
structure defCloudInit where
  Name : GoString
  PoolName : GoString
  Metadata : Metadata
  UserData : UserData
  UserDataContent : GoString
  UserDataPath : GoString
  MetaDataPath : GoString
  Volid : GoString
deriving DecidableEq

/-- A live connection `*libvirt.VirConnection`. -/
structure VirConnection where
  handle : Nat
deriving DecidableEq

/-- The provider's `Client`; its `libvirt` field may be nil. -/
structure Client where
  libvirt : Option VirConnection

/-- The functions of the package defined outside this file, as parameters:
`newCloudInitDef()`, `cloudInit.CreateAndUpload(virConn)` returning
`(key, err)`, and `newCloudInitDefFromRemoteISO(virConn, id)` returning
`(ci, err)`. -/
structure Backend where
  newCloudInitDef : defCloudInit
  CreateAndUpload : defCloudInit → VirConnection → GoString × Option GoError
  newCloudInitDefFromRemoteISO : VirConnection → GoString → defCloudInit × Option GoError

/-- What the functions do besides updating the resource data: log lines and
calls to the backend, in order. -/
inductive Event where
  | log (line : String)
  | logCloudInit (ci : defCloudInit)
  | callCreateAndUpload (ci : defCloudInit) (virConn : VirConnection)
  | callFromRemoteISO (virConn : VirConnection) (id : GoString)
deriving DecidableEq

/-- The message of the `[WARN]` line of `resourceCloudInitCreate`. -/
def warnBoth : String :=
  "[WARN] Both user_data and ssh_authorized_keys specified, will only use user_data"

/-- The outcome of a CRUD function: the resource data it leaves, the events it
caused, in order, and the `error` it returns. -/
structure Outcome where
  d : ResourceData
  trace : List Event
  err : Option GoError

/-! ## `resource_cloud_init.go`: create and read -/

/-- The function `resourceCloudInitRead` -/
def resourceCloudInitRead (B : Backend) (d : ResourceData) (meta : Client) : Outcome :=
  match meta.libvirt with
  | none => ⟨d, [], some ⟨str "The libvirt connection was nil."⟩⟩
  | some virConn =>
    let r := B.newCloudInitDefFromRemoteISO virConn d.Id
    let trace := [Event.callFromRemoteISO virConn d.Id]
    let ci := r.1
    let d := d.Set "pool" ci.PoolName
    let d := d.Set "name" ci.Name
    let d := d.Set "local_hostname" ci.Metadata.LocalHostname
    match r.2 with
    | some err => ⟨d, trace, some ⟨str "Error while retrieving remote ISO: " ++ err.msg⟩⟩
    | none =>
      let d :=
        if ci.UserData.SSHAuthorizedKeys.length = 1 then
          d.Set "ssh_authorized_key" (ci.UserData.SSHAuthorizedKeys.getD 0 [])
        else d
      ⟨d, trace, none⟩

/-- Lines 71 and 77 to 91 of `resourceCloudInitCreate`: the definition handed
to `CreateAndUpload`, and the local `sshKey`, built from a fresh definition. -/
def buildCloudInit (fresh : defCloudInit) (d : ResourceData) : defCloudInit × GoString :=
  let sshKey : GoString := []
  let cloudInit := fresh
  let cloudInit :=
    { cloudInit with Metadata := { cloudInit.Metadata with LocalHostname := d.Get "local_hostname" } }
  let p : defCloudInit × GoString :=
    if (d.GetOk "ssh_authorized_key").2 then
      let sshKey := d.Get "ssh_authorized_key"
      ({ cloudInit with
          UserData := { cloudInit.UserData with
            SSHAuthorizedKeys := cloudInit.UserData.SSHAuthorizedKeys ++ [sshKey] } }, sshKey)
    else (cloudInit, sshKey)
  let cloudInit := p.1
  let cloudInit := { cloudInit with Name := d.Get "name" }
  let cloudInit := { cloudInit with PoolName := d.Get "pool" }
  let cloudInit := { cloudInit with UserDataPath := d.Get "user_data_path" }
  let cloudInit := { cloudInit with Volid := d.Get "volid" }
  let cloudInit := { cloudInit with UserDataContent := d.Get "user_data" }
  (cloudInit, p.2)

/-- The function `resourceCloudInitCreate` -/
def resourceCloudInitCreate (B : Backend) (d : ResourceData) (meta : Client) : Outcome :=
  let trace := [Event.log "[DEBUG] creating cloudinit"]
  match meta.libvirt with
  | none => ⟨d, trace, some ⟨str "The libvirt connection was nil."⟩⟩
  | some virConn =>
    let built := buildCloudInit B.newCloudInitDef d
    let cloudInit := built.1
    let sshKey := built.2
    let trace :=
      if cloudInit.UserDataContent ≠ [] ∧ sshKey ≠ [] then trace ++ [Event.log warnBoth]
      else trace
    let trace := trace ++ [Event.logCloudInit cloudInit]
    let r := B.CreateAndUpload cloudInit virConn
    let trace := trace ++ [Event.callCreateAndUpload cloudInit virConn]
    match r.2 with
    | some err => ⟨d, trace, some err⟩
    | none =>
      let key := r.1
      let d := d.SetId key
      -- make sure we record the id even if the rest of this gets interrupted
      let d := d.Partial true
      let d := d.Set "id" key
      let d := d.SetPartial "id"
      let d := d.Partial false
      let o := resourceCloudInitRead B d meta
      ⟨o.d, trace ++ o.trace, o.err⟩

/-! ## Reference predicates used to state the properties -/

/-- Membership in the 64-character alphabet `encodeStd`. -/
def inAlphabet (c : Byte) : Bool := decide (c ∈ encodeStd)

/-- The two bytes the decoder skips: `'\n'` and `'\r'`. -/
def isNewline (c : Byte) : Bool := decide (c = LF ∨ c = CR)

/-- A string with every `'\n'` and `'\r'` removed. -/
def stripNewlines (s : GoString) : GoString := s.filter (fun c => !isNewline c)

/-- Padded base64 text: groups of four alphabet characters, of which only the
last may end in `=` or `==`. -/
def wellPadded : GoString → Bool
  | [] => true
  | a :: b :: c :: d :: rest =>
    inAlphabet a && inAlphabet b &&
      (if rest = [] then
        (c = padChar && d = padChar) || (inAlphabet c && (d = padChar || inAlphabet d))
      else inAlphabet c && inAlphabet d && wellPadded rest)
  | _ => false

/-- One left-to-right pass over the input that accepts exactly what the decoder
decodes without error, `j` being the number of characters of the current
quantum already read. It is the bridge between `DecodeString` and `wellPadded`. -/
def accepts : GoString → Nat → Bool
  | [], j => j = 0
  | c :: rest, j =>
    if inAlphabet c then (if j + 1 < 4 then accepts rest (j + 1) else accepts rest 0)
    else if isNewline c then accepts rest j
    else if c = padChar then
      (j = 2 && stripNewlines rest = [padChar]) || (3 ≤ j && stripNewlines rest = [])
    else false

/-- A lowercase hexadecimal digit: `0-9` or `a-f`. -/
def isLowerHexDigit (c : Byte) : Bool :=
  (48 ≤ c.val && c.val ≤ 57) || (97 ≤ c.val && c.val ≤ 102)

/-! ## Intermediate states of create and read -/

/-- The resource data after the three unconditional writes of a read. -/
def readWrites (d : ResourceData) (ci : defCloudInit) : ResourceData :=
  ((d.Set "pool" ci.PoolName).Set "name" ci.Name).Set "local_hostname" ci.Metadata.LocalHostname

/-- The resource data a create hands to the read after a successful upload. -/
def afterUpload (d : ResourceData) (key : GoString) : ResourceData :=
  ((((d.SetId key).Partial true).Set "id" key).SetPartial "id").Partial false

/-! ## Concrete inputs for the examples -/

/-- A fresh definition as `newCloudInitDef()` could return it. -/
def exampleFresh : defCloudInit :=
  ⟨[], [], ⟨[], str "created-at-0"⟩, ⟨[]⟩, [], [], str "meta-data", []⟩

/-- Resource data with a name, a hostname, an SSH key and user data set. -/
def exampleData : ResourceData :=
  { id := []
    attrs := fun k =>
      if k = "name" then some (str "ci1")
      else if k = "local_hostname" then some (str "node1")
      else if k = "ssh_authorized_key" then some (str "ssh-rsa AAAA")
      else if k = "user_data" then some (str "#cloud-config")
      else none
    partialMode := false
    partialMap := [] }

/-- Resource data with only a name and an empty SSH key. -/
def exampleDataNoKey : ResourceData :=
  { id := []
    attrs := fun k =>
      if k = "name" then some (str "ci1")
      else if k = "ssh_authorized_key" then some []
      else none
    partialMode := false
    partialMap := [] }

/-- A definition as the remote reader could reconstruct it, with one key. -/
def exampleRemote : defCloudInit :=
  ⟨str "ci1", str "remote-pool", ⟨str "node1", []⟩, ⟨[str "ssh-rsa AAAA"]⟩, [], [], [], []⟩

/-- A backend on which the upload and the read succeed. -/
def exampleBackend : Backend :=
  { newCloudInitDef := exampleFresh
    CreateAndUpload := fun _ _ => (str "/pool/ci1", none)
    newCloudInitDefFromRemoteISO := fun _ _ => (exampleRemote, none) }

/-- A backend on which the upload succeeds and the read fails. -/
def exampleBackendReadFails : Backend :=
  { newCloudInitDef := exampleFresh
    CreateAndUpload := fun _ _ => (str "/pool/ci1", none)
    newCloudInitDefFromRemoteISO := fun _ _ => (exampleRemote, some ⟨str "gone"⟩) }

/-- A backend on which the upload fails. -/
def exampleBackendUploadFails : Backend :=
  { newCloudInitDef := exampleFresh
    CreateAndUpload := fun _ _ => ([], some ⟨str "no pool"⟩)
    newCloudInitDefFromRemoteISO := fun _ _ => (exampleRemote, none) }

/-- A client with a live connection. -/
def exampleClient : Client := ⟨some ⟨1⟩⟩

/-- A client whose connection is nil. -/
def exampleClientNil : Client := ⟨none⟩

/-! # Theorems -/

/-! ## Arithmetic of one quantum -/

theorem lor_eq_add (x y i : Nat) (hx : 2 ^ i ∣ x) (hy : y < 2 ^ i) : x ||| y = x + y := by
  obtain ⟨k, rfl⟩ := hx
  exact (Nat.mul_add_lt_is_or hy k).symm

theorem enc_val (a b c : Nat) (hb : b < 256) (hc : c < 256) :
    a <<< 16 ||| b <<< 8 ||| c = a * 65536 + b * 256 + c := by
  simp only [Nat.shiftLeft_eq]
  rw [lor_eq_add (a * 2 ^ 16) (b * 2 ^ 8) 16 ⟨a, by ring⟩ (by omega)]
  rw [lor_eq_add (a * 2 ^ 16 + b * 2 ^ 8) c 8 ⟨a * 256 + b, by ring⟩ (by omega)]

theorem dec_val (d0 d1 d2 d3 : Nat) (h1 : d1 < 64) (h2 : d2 < 64) (h3 : d3 < 64) :
    d0 <<< 18 ||| d1 <<< 12 ||| d2 <<< 6 ||| d3 = d0 * 262144 + d1 * 4096 + d2 * 64 + d3 := by
  simp only [Nat.shiftLeft_eq]
  rw [lor_eq_add (d0 * 2 ^ 18) (d1 * 2 ^ 12) 18 ⟨d0, by ring⟩ (by omega)]
  rw [lor_eq_add (d0 * 2 ^ 18 + d1 * 2 ^ 12) (d2 * 2 ^ 6) 12 ⟨d0 * 64 + d1, by ring⟩ (by omega)]
  rw [lor_eq_add (d0 * 2 ^ 18 + d1 * 2 ^ 12 + d2 * 2 ^ 6) d3 6 ⟨d0 * 4096 + d1 * 64 + d2, by ring⟩ (by omega)]

theorem and63 (x : Nat) : x &&& 0x3f = x % 64 := Nat.and_pow_two_sub_one_eq_mod x 6

theorem decodeMap_encodeChar : ∀ i : Fin 64, decodeMap (encodeChar i.val) = i.val := by decide

theorem encodeChar_ne : ∀ i : Fin 64, encodeChar i.val ≠ LF ∧ encodeChar i.val ≠ CR ∧ encodeChar i.val ≠ padChar := by decide

theorem decodeMap_encodeChar_lt (i : Nat) (h : i < 64) : decodeMap (encodeChar i) = i :=
  decodeMap_encodeChar ⟨i, h⟩

theorem toByte_val (a : Byte) (x : Nat) (h : x % 256 = a.val) : toByte x = a := Fin.ext h

theorem decodeMap_pad : decodeMap padChar = 0xff ∧ padChar ≠ LF ∧ padChar ≠ CR := by decide

/-- four alphabet characters decode to one full quantum -/
theorem decodeQuantum_four (s0 s1 s2 s3 : Nat) (h0 : s0 < 64) (h1 : s1 < 64) (h2 : s2 < 64)
    (h3 : s3 < 64) (tail : GoString) (si : Int) :
    decodeQuantum (encodeChar s0 :: encodeChar s1 :: encodeChar s2 :: encodeChar s3 :: tail) si
      = ⟨tail, si + 1 + 1 + 1 + 1, quantumBytes s0 s1 s2 s3 4, none⟩ := by
  have e0 := decodeMap_encodeChar_lt s0 h0
  have e1 := decodeMap_encodeChar_lt s1 h1
  have e2 := decodeMap_encodeChar_lt s2 h2
  have e3 := decodeMap_encodeChar_lt s3 h3
  have n0 : s0 ≠ 255 := by omega
  have n1 : s1 ≠ 255 := by omega
  have n2 : s2 ≠ 255 := by omega
  have n3 : s3 ≠ 255 := by omega
  simp [decodeQuantum, decodeQuantumLoop, e0, e1, e2, e3, n0, n1, n2, n3, setSlot]

theorem decodeQuantum_three (s0 s1 s2 : Nat) (h0 : s0 < 64) (h1 : s1 < 64) (h2 : s2 < 64)
    (si : Int) :
    decodeQuantum [encodeChar s0, encodeChar s1, encodeChar s2, padChar] si
      = ⟨[], si + 1 + 1 + 1 + 1, quantumBytes s0 s1 s2 0 3, none⟩ := by
  have e0 := decodeMap_encodeChar_lt s0 h0
  have e1 := decodeMap_encodeChar_lt s1 h1
  have e2 := decodeMap_encodeChar_lt s2 h2
  have n0 : s0 ≠ 255 := by omega
  have n1 : s1 ≠ 255 := by omega
  have n2 : s2 ≠ 255 := by omega
  simp [decodeQuantum, decodeQuantumLoop, e0, e1, e2, n0, n1, n2, setSlot, decodeMap_pad,
    finishPadded, skipNewlines]

theorem decodeQuantum_two (s0 s1 : Nat) (h0 : s0 < 64) (h1 : s1 < 64) (si : Int) :
    decodeQuantum [encodeChar s0, encodeChar s1, padChar, padChar] si
      = ⟨[], si + 1 + 1 + 1 + 1, quantumBytes s0 s1 0 0 2, none⟩ := by
  have e0 := decodeMap_encodeChar_lt s0 h0
  have e1 := decodeMap_encodeChar_lt s1 h1
  have n0 : s0 ≠ 255 := by omega
  have n1 : s1 ≠ 255 := by omega
  simp [decodeQuantum, decodeQuantumLoop, e0, e1, n0, n1, setSlot, decodeMap_pad,
    finishPadded, skipNewlines]

theorem quantumBytes_full (a b c : Byte) :
    quantumBytes ((a.val <<< 16 ||| b.val <<< 8 ||| c.val) >>> 18 &&& 0x3f)
      ((a.val <<< 16 ||| b.val <<< 8 ||| c.val) >>> 12 &&& 0x3f)
      ((a.val <<< 16 ||| b.val <<< 8 ||| c.val) >>> 6 &&& 0x3f)
      ((a.val <<< 16 ||| b.val <<< 8 ||| c.val) &&& 0x3f) 4 = [a, b, c] := by
  have ha := a.isLt
  have hb := b.isLt
  have hc := c.isLt
  rw [enc_val _ _ _ hb hc]
  simp only [and63, Nat.shiftRight_eq_div_pow]
  unfold quantumBytes
  simp only [Nat.shiftRight_eq_div_pow]
  rw [dec_val _ _ _ _ (Nat.mod_lt _ (by decide)) (Nat.mod_lt _ (by decide)) (Nat.mod_lt _ (by decide))]
  simp only [List.take, Nat.reduceSub, List.cons.injEq, and_true]
  refine ⟨toByte_val _ _ ?_, toByte_val _ _ ?_, toByte_val _ _ ?_⟩ <;> omega

theorem quantumBytes_two (a b : Byte) :
    quantumBytes ((a.val <<< 16 ||| b.val <<< 8) >>> 18 &&& 0x3f)
      ((a.val <<< 16 ||| b.val <<< 8) >>> 12 &&& 0x3f)
      ((a.val <<< 16 ||| b.val <<< 8) >>> 6 &&& 0x3f) 0 3 = [a, b] := by
  have ha := a.isLt
  have hb := b.isLt
  have h : a.val <<< 16 ||| b.val <<< 8 = a.val * 65536 + b.val * 256 := by
    simp only [Nat.shiftLeft_eq]
    rw [lor_eq_add (a.val * 2 ^ 16) (b.val * 2 ^ 8) 16 ⟨a.val, by ring⟩ (by omega)]
  rw [h]
  simp only [and63, Nat.shiftRight_eq_div_pow]
  unfold quantumBytes
  simp only [Nat.shiftRight_eq_div_pow]
  rw [dec_val _ _ _ _ (Nat.mod_lt _ (by decide)) (Nat.mod_lt _ (by decide)) (by decide)]
  simp only [List.take, Nat.reduceSub, List.cons.injEq, and_true]
  refine ⟨toByte_val _ _ ?_, toByte_val _ _ ?_⟩ <;> omega

theorem quantumBytes_one (a : Byte) :
    quantumBytes ((a.val <<< 16) >>> 18 &&& 0x3f) ((a.val <<< 16) >>> 12 &&& 0x3f) 0 0 2 = [a] := by
  have ha := a.isLt
  simp only [and63, Nat.shiftRight_eq_div_pow, Nat.shiftLeft_eq]
  unfold quantumBytes
  simp only [Nat.shiftRight_eq_div_pow]
  rw [dec_val _ _ _ _ (Nat.mod_lt _ (by decide)) (by decide) (by decide)]
  simp only [List.take, Nat.reduceSub, List.cons.injEq, and_true]
  refine toByte_val _ _ ?_
  omega

theorem and63_lt (x : Nat) : x &&& 0x3f < 64 := by
  rw [and63]; exact Nat.mod_lt _ (by decide)

/-- Decoding undoes encoding, whatever the position, the output so far and the
spare fuel. -/
theorem decodeLoop_encode (s : GoString) :
    ∀ (fuel : Nat) (si : Int) (acc : GoString), (EncodeToString s).length ≤ fuel →
      decodeLoop fuel (EncodeToString s) si acc = (acc ++ s, none) := by
  induction s using EncodeToString.induct with
  | case1 =>
    intro fuel si acc _
    cases fuel <;> simp [EncodeToString, decodeLoop]
  | case2 a =>
    intro fuel si acc h
    cases fuel with
    | zero => simp [EncodeToString] at h
    | succ fuel =>
      simp only [EncodeToString, decodeLoop]
      rw [decodeQuantum_two _ _ (and63_lt _) (and63_lt _), quantumBytes_one]
      cases fuel <;> simp [decodeLoop]
  | case3 a b =>
    intro fuel si acc h
    cases fuel with
    | zero => simp [EncodeToString] at h
    | succ fuel =>
      simp only [EncodeToString, decodeLoop]
      rw [decodeQuantum_three _ _ _ (and63_lt _) (and63_lt _) (and63_lt _), quantumBytes_two]
      cases fuel <;> simp [decodeLoop]
  | case4 a b c rest ih =>
    intro fuel si acc h
    cases fuel with
    | zero => simp [EncodeToString] at h
    | succ fuel =>
      simp only [EncodeToString, decodeLoop]
      rw [decodeQuantum_four _ _ _ _ (and63_lt _) (and63_lt _) (and63_lt _) (and63_lt _),
        quantumBytes_full]
      simp only [EncodeToString, List.length_cons] at h
      simp only [reduceCtorEq, ↓reduceIte, ne_eq, not_true_eq_false]
      rw [ih fuel _ _ (by omega)]
      simp

theorem DecodeString_EncodeToString (s : GoString) :
    DecodeString (EncodeToString s) = (s, none) := by
  unfold DecodeString
  rw [decodeLoop_encode s _ 0 [] (Nat.le_refl _)]
  simp

/-! ## What the decoder accepts -/

theorem decodeMap_ne_iff : ∀ c : Byte, decodeMap c ≠ 0xff ↔ inAlphabet c = true := by decide!

theorem skipNewlines_strip (src : GoString) : ∀ si : Int,
    stripNewlines (skipNewlines src si).1 = stripNewlines src := by
  induction src with
  | nil => intro si; rfl
  | cons c rest ih =>
    intro si
    unfold skipNewlines
    by_cases h : c = LF ∨ c = CR
    · simp only [h, ↓reduceIte, ih]
      simp [stripNewlines, List.filter, isNewline, h]
    · simp only [h, ↓reduceIte]

theorem skipNewlines_head (src : GoString) : ∀ (si : Int) (c : Byte) (r : GoString),
    (skipNewlines src si).1 = c :: r → isNewline c = false := by
  induction src with
  | nil => intro si c r h; simp [skipNewlines] at h
  | cons a rest ih =>
    intro si c r h
    unfold skipNewlines at h
    by_cases ha : a = LF ∨ a = CR
    · simp only [ha, ↓reduceIte] at h
      exact ih _ _ _ h
    · simp only [ha, ↓reduceIte, List.cons.injEq] at h
      rw [← h.1]
      simp [isNewline, ha]

theorem skipNewlines_length (src : GoString) : ∀ si : Int,
    (skipNewlines src si).1.length ≤ src.length := by
  induction src with
  | nil => intro si; simp [skipNewlines]
  | cons a rest ih =>
    intro si
    unfold skipNewlines
    by_cases ha : a = LF ∨ a = CR
    · simp only [ha, ↓reduceIte, List.length_cons]
      exact Nat.le_succ_of_le (ih _)
    · simp only [ha, ↓reduceIte, le_refl]

theorem skipNewlines_nil_iff (src : GoString) (si : Int) :
    (skipNewlines src si).1 = [] ↔ stripNewlines src = [] := by
  constructor
  · intro h
    rw [← skipNewlines_strip src si, h]; rfl
  · intro h
    cases hs : (skipNewlines src si).1 with
    | nil => rfl
    | cons c r =>
      have hn := skipNewlines_head src si c r hs
      have := skipNewlines_strip src si
      rw [hs, h] at this
      simp [stripNewlines, List.filter, hn] at this

theorem newline_facts : ∀ c : Byte, (c = LF ∨ c = CR) → decodeMap c = 0xff := by decide!

theorem finishPadded_err (rest : GoString) (si : Int) (dbuf : Nat × Nat × Nat × Nat) (j : Nat) :
    ((finishPadded rest si dbuf j).err = none ∧ accepts (finishPadded rest si dbuf j).rest 0 = true)
      ↔ stripNewlines rest = [] := by
  unfold finishPadded
  simp only [ne_eq, ite_not]
  rw [← skipNewlines_nil_iff rest si]
  by_cases h : (skipNewlines rest si).1 = []
  · simp [h, accepts]
  · simp [h]

theorem finishPadded_length (rest : GoString) (si : Int) (dbuf : Nat × Nat × Nat × Nat) (j : Nat) :
    (finishPadded rest si dbuf j).rest.length ≤ rest.length := by
  unfold finishPadded
  exact skipNewlines_length rest si

theorem decodeQuantumLoop_length (src : GoString) : ∀ (si : Int) (j : Nat)
    (dbuf : Nat × Nat × Nat × Nat),
    (decodeQuantumLoop src si j dbuf).rest.length ≤ src.length - 1 := by
  induction src with
  | nil => intro si j dbuf; unfold decodeQuantumLoop; split <;> simp
  | cons c rest ih =>
    intro si j dbuf
    unfold decodeQuantumLoop
    simp only [List.length_cons, Nat.add_sub_cancel]
    split
    · split
      · exact Nat.le_trans (ih _ _ _) (Nat.sub_le _ _)
      · simp
    · split
      · exact Nat.le_trans (ih _ _ _) (Nat.sub_le _ _)
      · split
        · simp
        · split
          · simp
          · simp
          · split
            · simp
            · rename_i c2 rest2 si2 hs
              have hl := skipNewlines_length rest (si + 1)
              rw [hs] at hl
              simp only [List.length_cons] at hl
              split
              · simp only [List.length_cons]; exact hl
              · have := finishPadded_length rest2 (si2 + 1) dbuf 2
                omega
          · exact finishPadded_length _ _ _ _

theorem strip_cons_of_not_newline (c : Byte) (r : GoString) (h : isNewline c = false) :
    stripNewlines (c :: r) = c :: stripNewlines r := by
  simp [stripNewlines, List.filter, h]

theorem decodeQuantumLoop_accepts (src : GoString) : ∀ (si : Int) (j : Nat)
    (dbuf : Nat × Nat × Nat × Nat),
    ((decodeQuantumLoop src si j dbuf).err = none ∧
        accepts (decodeQuantumLoop src si j dbuf).rest 0 = true) ↔ accepts src j = true := by
  induction src with
  | nil =>
    intro si j dbuf
    unfold decodeQuantumLoop
    by_cases hj : j = 0 <;> simp [hj, accepts]
  | cons c rest ih =>
    intro si j dbuf
    unfold decodeQuantumLoop
    conv_rhs => unfold accepts
    by_cases ha : inAlphabet c = true
    · have hd := (decodeMap_ne_iff c).2 ha
      simp only [hd, ha, ↓reduceIte, ne_eq, not_false_eq_true]
      by_cases hj : j + 1 < 4
      · simp only [hj, ↓reduceIte]; exact ih _ _ _
      · simp only [hj, ↓reduceIte, true_and]
    · have hd : ¬ (decodeMap c ≠ 0xff) := fun h => ha ((decodeMap_ne_iff c).1 h)
      simp only [hd, ha, ↓reduceIte, Bool.false_eq_true]
      by_cases hn : c = LF ∨ c = CR
      · have hn2 : isNewline c = true := by simp [isNewline, hn]
        simp only [hn, hn2, ↓reduceIte]; exact ih _ _ _
      · have hn2 : isNewline c = false := by simp [isNewline, hn]
        simp only [hn, hn2, ↓reduceIte, Bool.false_eq_true]
        by_cases hp : c = padChar
        · simp only [hp, ne_eq, not_true_eq_false, ↓reduceIte]
          match j with
          | 0 => simp
          | 1 => simp
          | 2 =>
            simp only [Nat.reduceLeDiff, decide_False, Bool.false_and, Bool.or_false,
              decide_True, Bool.true_and, decide_eq_true_eq]
            cases hs : skipNewlines rest (si + 1) with
            | mk r1 si2 =>
              cases r1 with
              | nil =>
                have := (skipNewlines_nil_iff rest (si + 1)).1 (by rw [hs])
                simp [this]
              | cons c2 rest2 =>
                have hc2 := skipNewlines_head rest (si + 1) c2 rest2 (by rw [hs])
                have hst := skipNewlines_strip rest (si + 1)
                rw [hs] at hst
                simp only at hst
                rw [strip_cons_of_not_newline c2 rest2 hc2] at hst
                rw [← hst]
                by_cases hc : c2 = padChar
                · simp only [hc, ne_eq, not_true_eq_false, ↓reduceIte, List.cons.injEq, true_and]
                  exact finishPadded_err _ _ _ _
                · simp [hc]
          | j + 3 =>
            simp only [Nat.le_add_left, decide_True, Bool.true_and, decide_eq_true_eq]
            have : ¬ (j + 3 = 2) := by omega
            simp only [this, decide_False, Bool.false_and, Bool.false_or, decide_eq_true_eq]
            exact finishPadded_err _ _ _ _
        · simp [hp]

theorem decodeLoop_fuel (fuel1 : Nat) : ∀ (fuel2 : Nat) (src : GoString) (si : Int)
    (acc : GoString), src.length ≤ fuel1 → src.length ≤ fuel2 →
    decodeLoop fuel1 src si acc = decodeLoop fuel2 src si acc := by
  induction fuel1 with
  | zero =>
    intro fuel2 src si acc h1 _
    have : src = [] := List.eq_nil_of_length_eq_zero (Nat.le_zero.1 h1)
    subst this
    cases fuel2 <;> simp [decodeLoop]
  | succ n ih =>
    intro fuel2 src si acc h1 h2
    cases fuel2 with
    | zero =>
      have : src = [] := List.eq_nil_of_length_eq_zero (Nat.le_zero.1 h2)
      subst this
      simp [decodeLoop]
    | succ m =>
      unfold decodeLoop
      by_cases hs : src = []
      · simp [hs]
      · simp only [hs, ↓reduceIte]
        have hl := decodeQuantumLoop_length src si 0 (0, 0, 0, 0)
        have hpos : 0 < src.length := List.length_pos.2 hs
        split
        · rfl
        · exact ih m _ _ _ (by unfold decodeQuantum; omega) (by unfold decodeQuantum; omega)

theorem decodeLoop_accepts (fuel : Nat) : ∀ (src : GoString) (si : Int) (acc : GoString),
    src.length ≤ fuel → ((decodeLoop fuel src si acc).2 = none ↔ accepts src 0 = true) := by
  induction fuel with
  | zero =>
    intro src si acc h
    have : src = [] := List.eq_nil_of_length_eq_zero (Nat.le_zero.1 h)
    subst this
    simp [decodeLoop, accepts]
  | succ n ih =>
    intro src si acc h
    unfold decodeLoop
    by_cases hs : src = []
    · simp [hs, accepts]
    · simp only [hs, ↓reduceIte]
      have hl := decodeQuantumLoop_length src si 0 (0, 0, 0, 0)
      have hpos : 0 < src.length := List.length_pos.2 hs
      have hq := decodeQuantumLoop_accepts src si 0 (0, 0, 0, 0)
      unfold decodeQuantum
      by_cases he : (decodeQuantumLoop src si 0 (0, 0, 0, 0)).err = none
      · simp only [he, ne_eq, not_true_eq_false, ↓reduceIte]
        rw [ih _ _ _ (by omega), ← hq]
        exact ⟨fun h => ⟨he, h⟩, fun h => h.2⟩
      · simp only [he, ne_eq, not_false_eq_true, ↓reduceIte, false_iff]
        intro hacc
        exact he (hq.2 hacc).1

theorem strip_idem (s : GoString) : stripNewlines (stripNewlines s) = stripNewlines s := by
  simp [stripNewlines, List.filter_filter]

theorem strip_eq_self (t : GoString) (h : ∀ c ∈ t, isNewline c = false) : stripNewlines t = t := by
  unfold stripNewlines
  rw [List.filter_eq_self]
  intro c hc
  simp [h c hc]

theorem not_newline_of_alpha : ∀ c : Byte, inAlphabet c = true → isNewline c = false := by decide!

theorem accepts_strip (src : GoString) : ∀ j, accepts (stripNewlines src) j = accepts src j := by
  induction src with
  | nil => intro j; rfl
  | cons c rest ih =>
    intro j
    by_cases hn : isNewline c = true
    · have ha : inAlphabet c = false := by
        cases h : inAlphabet c with
        | false => rfl
        | true => rw [not_newline_of_alpha c h] at hn; cases hn
      have : stripNewlines (c :: rest) = stripNewlines rest := by
        simp [stripNewlines, List.filter, hn]
      rw [this, ih]
      conv_rhs => unfold accepts
      simp [ha, hn]
    · have hn : isNewline c = false := by simpa using hn
      rw [strip_cons_of_not_newline c rest hn]
      unfold accepts
      simp only [ih, strip_idem]

theorem pad_not_alpha : inAlphabet padChar = false := by decide!

theorem accepts_step (c : Byte) (rest : GoString) (j : Nat) (hn : isNewline c = false) :
    accepts (c :: rest) j =
      if inAlphabet c then (if j + 1 < 4 then accepts rest (j + 1) else accepts rest 0)
      else if c = padChar then
        (j = 2 && stripNewlines rest = [padChar]) || (3 ≤ j && stripNewlines rest = [])
      else false := by
  conv_lhs => unfold accepts
  simp [hn]

theorem accepts_wellPadded (t : GoString) :
    (∀ c ∈ t, isNewline c = false) → accepts t 0 = wellPadded t := by
  induction t using wellPadded.induct with
  | case1 => intro _; rfl
  | case2 a b c d rest ih =>
    intro h
    have ha : isNewline a = false := h a (by simp)
    have hb : isNewline b = false := h b (by simp)
    have hc : isNewline c = false := h c (by simp)
    have hd : isNewline d = false := h d (by simp)
    have hr : ∀ x ∈ rest, isNewline x = false := fun x hx => h x (by simp [hx])
    have hsr : stripNewlines rest = rest := strip_eq_self rest hr
    have hsd : stripNewlines (d :: rest) = d :: rest :=
      strip_eq_self _ (fun x hx => h x (by simp at hx ⊢; tauto))
    rw [accepts_step a _ 0 ha]
    unfold wellPadded
    by_cases xa : inAlphabet a = true
    · simp only [xa, ↓reduceIte, Nat.zero_add, Nat.one_lt_ofNat, Bool.true_and]
      rw [accepts_step b _ 1 hb]
      by_cases xb : inAlphabet b = true
      · simp only [xb, ↓reduceIte, Nat.reduceAdd, Nat.reduceLT, Bool.true_and]
        rw [accepts_step c _ 2 hc]
        by_cases xc : inAlphabet c = true
        · have cp : c ≠ padChar := by
            intro e; rw [e, pad_not_alpha] at xc; cases xc
          simp only [xc, ↓reduceIte, Nat.reduceAdd, Nat.reduceLT, Bool.true_and, cp,
            decide_False, Bool.false_and, Bool.false_or]
          rw [accepts_step d _ 3 hd]
          by_cases xd : inAlphabet d = true
          · simp only [xd, ↓reduceIte, Nat.reduceAdd, Nat.lt_irrefl, Bool.or_true, Bool.true_and]
            by_cases hre : rest = []
            · simp [hre, accepts]
            · simp only [hre, ↓reduceIte]; exact ih hr
          · simp only [xd, Bool.false_eq_true, ↓reduceIte, hsr, Bool.or_false, Bool.false_and]
            by_cases hre : rest = []
            · by_cases dp : d = padChar <;> simp [hre, dp]
            · by_cases dp : d = padChar <;> simp [hre, dp]
        · simp only [xc, Bool.false_eq_true, ↓reduceIte, hsd, Bool.false_and, Bool.or_false]
          by_cases cp : c = padChar
          · by_cases hre : rest = []
            · by_cases dp : d = padChar <;> simp [hre, dp, cp]
            · by_cases dp : d = padChar <;> simp [hre, dp, cp]
          · by_cases hre : rest = [] <;> simp [hre, cp]
      · by_cases bp : b = padChar <;> simp [xb, bp, pad_not_alpha]
    · by_cases ap : a = padChar <;> simp [xa, ap, pad_not_alpha]
  | case3 t h1 h2 =>
    intro h
    unfold wellPadded
    match t, h1, h2, h with
    | [], h1, _, _ => exact absurd rfl h1
    | [a], _, _, h =>
      have ha : isNewline a = false := h a (by simp)
      rw [accepts_step a _ 0 ha]
      by_cases xa : inAlphabet a = true
      · simp [xa, accepts]
      · by_cases ap : a = padChar <;> simp [xa, ap, pad_not_alpha]
    | [a, b], _, _, h =>
      have ha : isNewline a = false := h a (by simp)
      have hb : isNewline b = false := h b (by simp)
      rw [accepts_step a _ 0 ha]
      by_cases xa : inAlphabet a = true
      · simp only [xa, ↓reduceIte, Nat.zero_add, Nat.one_lt_ofNat]
        rw [accepts_step b _ 1 hb]
        by_cases xb : inAlphabet b = true
        · simp [xb, accepts]
        · by_cases bp : b = padChar <;> simp [xb, bp, pad_not_alpha]
      · by_cases ap : a = padChar <;> simp [xa, ap, pad_not_alpha]
    | [a, b, c], _, _, h =>
      have ha : isNewline a = false := h a (by simp)
      have hb : isNewline b = false := h b (by simp)
      have hc : isNewline c = false := h c (by simp)
      rw [accepts_step a _ 0 ha]
      by_cases xa : inAlphabet a = true
      · simp only [xa, ↓reduceIte, Nat.zero_add, Nat.one_lt_ofNat]
        rw [accepts_step b _ 1 hb]
        by_cases xb : inAlphabet b = true
        · simp only [xb, ↓reduceIte, Nat.reduceAdd, Nat.reduceLT]
          rw [accepts_step c _ 2 hc]
          by_cases xc : inAlphabet c = true
          · simp [xc, accepts]
          · by_cases cp : c = padChar <;> simp [xc, cp, stripNewlines, pad_not_alpha]
        · by_cases bp : b = padChar <;> simp [xb, bp, pad_not_alpha]
      · by_cases ap : a = padChar <;> simp [xa, ap, pad_not_alpha]
    | a :: b :: c :: d :: rest, _, h2, _ => exact absurd rfl (h2 a b c d rest)

/-! ## The decoder and `wellPadded` -/

theorem mem_strip_not_newline (s : GoString) : ∀ c ∈ stripNewlines s, isNewline c = false := by
  intro c hc
  unfold stripNewlines at hc
  have := (List.mem_filter.1 hc).2
  simpa using this

/-- `DecodeString` reports no error exactly on padded base64 text with
newlines interspersed. -/
theorem DecodeString_ok_iff (s : GoString) :
    (DecodeString s).2 = none ↔ wellPadded (stripNewlines s) = true := by
  unfold DecodeString
  rw [decodeLoop_accepts s.length s 0 [] (Nat.le_refl _), ← accepts_strip,
    accepts_wellPadded _ (mem_strip_not_newline s)]

theorem wellPadded_length (t : GoString) : wellPadded t = true → t.length % 4 = 0 := by
  induction t using wellPadded.induct with
  | case1 => intro _; rfl
  | case2 a b c d rest ih =>
    unfold wellPadded
    by_cases hre : rest = []
    · intro _; simp [hre]
    · simp only [hre, ↓reduceIte, Bool.and_eq_true, List.length_cons]
      intro h
      have := ih h.2.2
      omega
  | case3 t h1 h2 =>
    unfold wellPadded
    intro h
    split at h
    · exact absurd rfl h1
    · exact absurd rfl (h2 _ _ _ _ _)
    · cases h

theorem wellPadded_chars (t : GoString) :
    wellPadded t = true → ∀ x ∈ t, inAlphabet x = true ∨ x = padChar := by
  induction t using wellPadded.induct with
  | case1 => intro _ x hx; cases hx
  | case2 a b c d rest ih =>
    unfold wellPadded
    by_cases hre : rest = []
    · subst hre
      simp only [↓reduceIte, Bool.and_eq_true, Bool.or_eq_true, decide_eq_true_eq,
        List.mem_cons, List.mem_singleton, List.not_mem_nil, or_false]
      rintro ⟨⟨ha, hb⟩, h⟩ x hx
      rcases hx with rfl | rfl | rfl | rfl
      · exact Or.inl ha
      · exact Or.inl hb
      · rcases h with h | h
        · exact Or.inr h.1
        · exact Or.inl h.1
      · rcases h with h | h
        · exact Or.inr h.2
        · rcases h.2 with h | h
          · exact Or.inr h
          · exact Or.inl h
    · simp only [hre, ↓reduceIte, Bool.and_eq_true, List.mem_cons]
      rintro ⟨⟨ha, hb⟩, ⟨hc, hd⟩, hr⟩ x hx
      rcases hx with rfl | rfl | rfl | rfl | hx
      · exact Or.inl ha
      · exact Or.inl hb
      · exact Or.inl hc
      · exact Or.inl hd
      · exact ih hr x hx
  | case3 t h1 h2 =>
    unfold wellPadded
    intro h
    split at h
    · exact absurd rfl h1
    · exact absurd rfl (h2 _ _ _ _ _)
    · cases h

/-- A byte the decoder neither decodes nor skips makes decoding fail. -/
theorem DecodeString_err_of_foreign (s : GoString) (c : Byte) (hc : c ∈ s)
    (h1 : c ∉ encodeStd) (h2 : c ≠ padChar) (h3 : c ≠ LF) (h4 : c ≠ CR) :
    (DecodeString s).2 ≠ none := by
  intro h
  have hw := (DecodeString_ok_iff s).1 h
  have hmem : c ∈ stripNewlines s := by
    unfold stripNewlines
    refine List.mem_filter.2 ⟨hc, ?_⟩
    simp [isNewline, h3, h4]
  rcases wellPadded_chars _ hw c hmem with h | h
  · exact h1 (by simpa [inAlphabet] using h)
  · exact h2 h

/-- A number of non-newline bytes that is not a multiple of four makes
decoding fail. -/
theorem DecodeString_err_of_length (s : GoString) (hl : (stripNewlines s).length % 4 ≠ 0) :
    (DecodeString s).2 ≠ none := by
  intro h
  exact hl (wellPadded_length _ ((DecodeString_ok_iff s).1 h))

/-! ## The fingerprint -/

theorem hexEncodeToString_length (l : GoString) :
    (hexEncodeToString l).length = 2 * l.length := by
  induction l with
  | nil => rfl
  | cons v rest ih => simp only [hexEncodeToString, List.length_cons, ih]; omega

theorem hextable_digits : ∀ v : Byte,
    isLowerHexDigit (hextable.getD (v.val >>> 4) 0) = true ∧
      isLowerHexDigit (hextable.getD (v.val &&& 0x0f) 0) = true := by decide!

theorem hexEncodeToString_digits (l : GoString) :
    ∀ c ∈ hexEncodeToString l, isLowerHexDigit c = true := by
  induction l with
  | nil => intro c hc; cases hc
  | cons v rest ih =>
    intro c hc
    simp only [hexEncodeToString, List.mem_cons] at hc
    rcases hc with rfl | rfl | hc
    · exact (hextable_digits v).1
    · exact (hextable_digits v).2
    · exact ih c hc

theorem putUint32_length (x : Nat) : (putUint32 x).length = 4 := rfl

theorem sha1Sum_length (data : GoString) : (sha1Sum data).length = 20 := by
  simp only [sha1Sum, List.length_append, putUint32_length]

/-- The model of `sha1.Sum` reproduces the FIPS 180 test vectors (one-block,
empty and two-block messages). -/
theorem sha1Sum_test_vectors :
    hexEncodeToString (sha1Sum (str "abc")) = str "a9993e364706816aba3e25717850c26c9cd0d89d" ∧
      hexEncodeToString (sha1Sum []) = str "da39a3ee5e6b4b0d3255bfef95601890afd80709" ∧
      hexEncodeToString
          (sha1Sum (str "abcdbcdecdefdefgefghfghighijhijkijkljklmklmnlmnomnopnopq")) =
        str "84983e441c3bd26ebaae4aa1f95129e5e54670f1" := by
  decide!

/-- The model of `DecodeString` on small inputs: canonical and non-canonical
padding decode and newlines are skipped wherever they stand. -/
theorem DecodeString_examples :
    DecodeString (str "QUJD") = (str "ABC", none) ∧
      DecodeString (str "QQ==") = (str "A", none) ∧
      DecodeString (str "QR==") = (str "A", none) ∧
      DecodeString ([LF] ++ str "Q" ++ [CR, LF] ++ str "Q=" ++ [LF] ++ str "=" ++ [LF]) =
        (str "A", none) ∧
      DecodeString [LF] = ([], none) ∧
      DecodeString (str "QQ===") = (str "A", some ⟨4⟩) ∧
      DecodeString (str "QUJD!") = (str "ABC", some ⟨4⟩) := by
  decide

/-- The model of `DecodeString` reports, on the corrupt inputs tabulated in the
tests of `encoding/base64`, an error at the offset tabulated there, and none
on the valid ones. -/
theorem DecodeString_corrupt_offsets :
    ((DecodeString (str "")).2 = none ∧ (DecodeString [LF]).2 = none ∧
        (DecodeString (str "AAA=" ++ [LF])).2 = none ∧
        (DecodeString (str "AAAA" ++ [LF])).2 = none ∧
        (DecodeString (str "AA==")).2 = none ∧ (DecodeString (str "AAA=")).2 = none ∧
        (DecodeString (str "AAAA")).2 = none) ∧
      ((DecodeString (str "!!!!")).2 = some ⟨0⟩ ∧ (DecodeString (str "====")).2 = some ⟨0⟩ ∧
        (DecodeString (str "x===")).2 = some ⟨1⟩ ∧ (DecodeString (str "=AAA")).2 = some ⟨0⟩ ∧
        (DecodeString (str "A=AA")).2 = some ⟨1⟩ ∧ (DecodeString (str "AA=A")).2 = some ⟨2⟩ ∧
        (DecodeString (str "AA==A")).2 = some ⟨4⟩ ∧
        (DecodeString (str "AAA=AAAA")).2 = some ⟨4⟩ ∧
        (DecodeString (str "AAAAA")).2 = some ⟨4⟩ ∧ (DecodeString (str "AAAAAA")).2 = some ⟨4⟩ ∧
        (DecodeString (str "A=")).2 = some ⟨1⟩ ∧ (DecodeString (str "A==")).2 = some ⟨1⟩ ∧
        (DecodeString (str "AA=")).2 = some ⟨3⟩ ∧ (DecodeString (str "AAAAAA=")).2 = some ⟨7⟩ ∧
        (DecodeString (str "YWJjZA=====")).2 = some ⟨8⟩) := by
  decide

theorem userDataHashSum_of_ok (s : GoString) (h : (DecodeString s).2 = none) :
    userDataHashSum s = hexEncodeToString (sha1Sum (DecodeString s).1) := by
  simp [userDataHashSum, h]

theorem userDataHashSum_of_err (s : GoString) (h : (DecodeString s).2 ≠ none) :
    userDataHashSum s = hexEncodeToString (sha1Sum s) := by
  simp [userDataHashSum, h]

theorem userDataHashSum_encode (s : GoString) :
    userDataHashSum (EncodeToString s) = hexEncodeToString (sha1Sum s) := by
  rw [userDataHashSum_of_ok _ (by rw [DecodeString_EncodeToString]), DecodeString_EncodeToString]

theorem userDataDecode_of_ok (s : GoString) (h : (DecodeString s).2 = none) :
    userDataDecode s = (DecodeString s).1 := by
  unfold userDataDecode
  by_cases hs : s = []
  · subst hs; rfl
  · simp [hs, h]

theorem userDataDecode_of_err (s : GoString) (h : (DecodeString s).2 ≠ none) :
    userDataDecode s = s := by
  unfold userDataDecode
  by_cases hs : s = []
  · simp [hs]
  · simp [hs, h]

/-! ## The builder, create and read -/

theorem Get_of_some (d : ResourceData) (key : String) (k : GoString)
    (h : d.attrs key = some k) : d.Get key = k := by
  simp [ResourceData.Get, h]

theorem Get_ssh_of_none (d : ResourceData) (h : d.attrs "ssh_authorized_key" = none) :
    d.Get "ssh_authorized_key" = [] := by
  simp [ResourceData.Get, h, schemaDefault]

theorem GetOk_ssh (d : ResourceData) :
    (d.GetOk "ssh_authorized_key").2 = true ↔ d.Get "ssh_authorized_key" ≠ [] := by
  unfold ResourceData.GetOk
  cases h : d.attrs "ssh_authorized_key" with
  | none => simp [Get_ssh_of_none d h, schemaDefault]
  | some k => simp [Get_of_some d _ k h]

/-- The key list and the local `sshKey` the builder leaves. -/
theorem buildCloudInit_keys (fresh : defCloudInit) (d : ResourceData) :
    (d.Get "ssh_authorized_key" ≠ [] →
        (buildCloudInit fresh d).1.UserData.SSHAuthorizedKeys =
            fresh.UserData.SSHAuthorizedKeys ++ [d.Get "ssh_authorized_key"] ∧
          (buildCloudInit fresh d).2 = d.Get "ssh_authorized_key") ∧
      (d.Get "ssh_authorized_key" = [] →
        (buildCloudInit fresh d).1.UserData.SSHAuthorizedKeys = fresh.UserData.SSHAuthorizedKeys ∧
          (buildCloudInit fresh d).2 = []) := by
  constructor
  · intro h
    have := (GetOk_ssh d).2 h
    simp [buildCloudInit, this]
  · intro h
    have : (d.GetOk "ssh_authorized_key").2 = false := by
      cases hb : (d.GetOk "ssh_authorized_key").2 with
      | false => rfl
      | true => exact absurd h ((GetOk_ssh d).1 hb)
    simp [buildCloudInit, this]

theorem buildCloudInit_content (fresh : defCloudInit) (d : ResourceData) :
    (buildCloudInit fresh d).1.UserDataContent = d.Get "user_data" := rfl

theorem buildCloudInit_sshKey (fresh : defCloudInit) (d : ResourceData) :
    (buildCloudInit fresh d).2 = d.Get "ssh_authorized_key" := by
  by_cases h : d.Get "ssh_authorized_key" = []
  · rw [((buildCloudInit_keys fresh d).2 h).2, h]
  · exact ((buildCloudInit_keys fresh d).1 h).2

theorem read_nil (B : Backend) (d : ResourceData) (meta : Client) (hv : meta.libvirt = none) :
    resourceCloudInitRead B d meta = ⟨d, [], some ⟨str "The libvirt connection was nil."⟩⟩ := by
  unfold resourceCloudInitRead
  simp only [hv]

theorem read_err (B : Backend) (d : ResourceData) (meta : Client) (v : VirConnection)
    (hv : meta.libvirt = some v) (e : GoError)
    (he : (B.newCloudInitDefFromRemoteISO v d.id).2 = some e) :
    resourceCloudInitRead B d meta =
      ⟨readWrites d (B.newCloudInitDefFromRemoteISO v d.id).1, [Event.callFromRemoteISO v d.id],
        some ⟨str "Error while retrieving remote ISO: " ++ e.msg⟩⟩ := by
  unfold resourceCloudInitRead
  simp only [hv, ResourceData.Id, he, readWrites]

theorem read_ok (B : Backend) (d : ResourceData) (meta : Client) (v : VirConnection)
    (hv : meta.libvirt = some v) (he : (B.newCloudInitDefFromRemoteISO v d.id).2 = none) :
    resourceCloudInitRead B d meta =
      ⟨if (B.newCloudInitDefFromRemoteISO v d.id).1.UserData.SSHAuthorizedKeys.length = 1 then
          (readWrites d (B.newCloudInitDefFromRemoteISO v d.id).1).Set "ssh_authorized_key"
            ((B.newCloudInitDefFromRemoteISO v d.id).1.UserData.SSHAuthorizedKeys.getD 0 [])
        else readWrites d (B.newCloudInitDefFromRemoteISO v d.id).1,
        [Event.callFromRemoteISO v d.id], none⟩ := by
  unfold resourceCloudInitRead
  simp only [hv, ResourceData.Id, he, readWrites]

/-- The events of a read. -/
theorem read_trace (B : Backend) (d : ResourceData) (meta : Client) (v : VirConnection)
    (hv : meta.libvirt = some v) :
    (resourceCloudInitRead B d meta).trace = [Event.callFromRemoteISO v d.id] := by
  cases he : (B.newCloudInitDefFromRemoteISO v d.id).2 with
  | some e => rw [read_err B d meta v hv e he]
  | none => rw [read_ok B d meta v hv he]

theorem Set_id (d : ResourceData) (key : String) (value : GoString) :
    (d.Set key value).id = d.id := by
  unfold ResourceData.Set
  split <;> rfl

theorem Set_partialMode (d : ResourceData) (key : String) (value : GoString) :
    (d.Set key value).partialMode = d.partialMode := by
  unfold ResourceData.Set
  split <;> rfl

theorem read_id (B : Backend) (d : ResourceData) (meta : Client) :
    (resourceCloudInitRead B d meta).d.id = d.id := by
  cases hv : meta.libvirt with
  | none => rw [read_nil B d meta hv]
  | some v =>
    cases he : (B.newCloudInitDefFromRemoteISO v d.id).2 with
    | some e => rw [read_err B d meta v hv e he]; simp only [readWrites, Set_id]
    | none =>
      rw [read_ok B d meta v hv he]
      simp only
      split <;> simp only [readWrites, Set_id]

theorem read_partialMode (B : Backend) (d : ResourceData) (meta : Client) :
    (resourceCloudInitRead B d meta).d.partialMode = d.partialMode := by
  cases hv : meta.libvirt with
  | none => rw [read_nil B d meta hv]
  | some v =>
    cases he : (B.newCloudInitDefFromRemoteISO v d.id).2 with
    | some e => rw [read_err B d meta v hv e he]; simp only [readWrites, Set_partialMode]
    | none =>
      rw [read_ok B d meta v hv he]
      simp only
      split <;> simp only [readWrites, Set_partialMode]

/-- The events of a create on a live connection: the debug line, the warning
when both inputs are non-empty, the definition logged and handed to
`CreateAndUpload`, and the read when the upload succeeded. -/
theorem create_trace (B : Backend) (d : ResourceData) (meta : Client) (v : VirConnection)
    (hv : meta.libvirt = some v) :
    (resourceCloudInitCreate B d meta).trace =
      [Event.log "[DEBUG] creating cloudinit"] ++
        (if d.Get "user_data" ≠ [] ∧ d.Get "ssh_authorized_key" ≠ [] then [Event.log warnBoth]
          else []) ++
        [Event.logCloudInit (buildCloudInit B.newCloudInitDef d).1,
          Event.callCreateAndUpload (buildCloudInit B.newCloudInitDef d).1 v] ++
        (if (B.CreateAndUpload (buildCloudInit B.newCloudInitDef d).1 v).2 = none then
          [Event.callFromRemoteISO v (B.CreateAndUpload (buildCloudInit B.newCloudInitDef d).1 v).1]
          else []) := by
  unfold resourceCloudInitCreate
  simp only [hv, buildCloudInit_content, buildCloudInit_sshKey]
  cases hup : (B.CreateAndUpload (buildCloudInit B.newCloudInitDef d).1 v).2 with
  | some e =>
    by_cases hw : d.Get "user_data" ≠ [] ∧ d.Get "ssh_authorized_key" ≠ [] <;> simp [hw]
  | none =>
    simp only [read_trace B _ meta v hv]
    have hid : ((((((d.SetId (B.CreateAndUpload (buildCloudInit B.newCloudInitDef d).1 v).1).Partial
        true).Set "id" (B.CreateAndUpload (buildCloudInit B.newCloudInitDef d).1 v).1).SetPartial
        "id").Partial false).id) = (B.CreateAndUpload (buildCloudInit B.newCloudInitDef d).1 v).1 := by
      simp [ResourceData.Partial, ResourceData.SetPartial, ResourceData.Set, ResourceData.SetId,
        schemaKeys]
    rw [hid]
    by_cases hw : d.Get "user_data" ≠ [] ∧ d.Get "ssh_authorized_key" ≠ [] <;> simp [hw]

theorem create_err (B : Backend) (d : ResourceData) (meta : Client) (v : VirConnection)
    (hv : meta.libvirt = some v) (e : GoError)
    (he : (B.CreateAndUpload (buildCloudInit B.newCloudInitDef d).1 v).2 = some e) :
    (resourceCloudInitCreate B d meta).d = d ∧ (resourceCloudInitCreate B d meta).err = some e := by
  unfold resourceCloudInitCreate
  simp only [hv, he, and_self]

theorem create_ok (B : Backend) (d : ResourceData) (meta : Client) (v : VirConnection)
    (hv : meta.libvirt = some v)
    (he : (B.CreateAndUpload (buildCloudInit B.newCloudInitDef d).1 v).2 = none) :
    (resourceCloudInitCreate B d meta).d =
        (resourceCloudInitRead B
          (afterUpload d (B.CreateAndUpload (buildCloudInit B.newCloudInitDef d).1 v).1) meta).d ∧
      (resourceCloudInitCreate B d meta).err =
        (resourceCloudInitRead B
          (afterUpload d (B.CreateAndUpload (buildCloudInit B.newCloudInitDef d).1 v).1) meta).err := by
  unfold resourceCloudInitCreate
  simp only [hv, he, afterUpload, and_self]

theorem afterUpload_id (d : ResourceData) (key : GoString) : (afterUpload d key).id = key := by
  simp [afterUpload, ResourceData.Partial, ResourceData.SetPartial, ResourceData.Set,
    ResourceData.SetId, schemaKeys]

theorem afterUpload_partialMode (d : ResourceData) (key : GoString) :
    (afterUpload d key).partialMode = false := by
  simp [afterUpload, ResourceData.Partial]

theorem readWrites_attrs (d : ResourceData) (ci : defCloudInit) :
    (readWrites d ci).attrs "pool" = some ci.PoolName ∧
      (readWrites d ci).attrs "name" = some ci.Name ∧
      (readWrites d ci).attrs "local_hostname" = some ci.Metadata.LocalHostname ∧
      (readWrites d ci).attrs "ssh_authorized_key" = d.attrs "ssh_authorized_key" ∧
      (readWrites d ci).id = d.id := by
  simp [readWrites, ResourceData.Set, schemaKeys]

theorem Set_attrs_other (d : ResourceData) (key other : String) (value : GoString)
    (h : other ≠ key) : (d.Set key value).attrs other = d.attrs other := by
  unfold ResourceData.Set
  split
  · simp [h]
  · rfl

theorem Set_ssh_attrs (d : ResourceData) (value : GoString) :
    (d.Set "ssh_authorized_key" value).attrs "ssh_authorized_key" = some value := by
  simp [ResourceData.Set, schemaKeys]

/-- The padded encoding of a non-empty string is longer than the string. -/
theorem EncodeToString_length_gt (s : GoString) :
    s ≠ [] → s.length < (EncodeToString s).length := by
  induction s using EncodeToString.induct with
  | case1 => intro h; exact absurd rfl h
  | case2 a => intro _; simp [EncodeToString]
  | case3 a b => intro _; simp [EncodeToString]
  | case4 a b c rest ih =>
    intro _
    simp only [EncodeToString, List.length_cons]
    by_cases hr : rest = []
    · subst hr; simp [EncodeToString]
    · have := ih hr
      omega

theorem EncodeToString_ne_self (s : GoString) (h : s ≠ []) : EncodeToString s ≠ s := by
  intro e
  have := EncodeToString_length_gt s h
  rw [e] at this
  exact Nat.lt_irrefl _ this

/-! # The claims -/

/-- C1, counterexample. The string `AAAA` is itself valid base64 (of three zero
bytes), so its fingerprint is the digest of those three bytes, while the
fingerprint of its encoding `QUFBQQ==` is the digest of `AAAA`: the two differ. -/
theorem C1_counterexample_fingerprint_of_base64_looking_string :
    userDataHashSum (str "AAAA") = str "29e2dcfbb16f63bb0254df7585a15bb6fb5e927d" ∧
      EncodeToString (str "AAAA") = str "QUFBQQ==" ∧
      userDataHashSum (EncodeToString (str "AAAA")) =
        str "e2512172abf8cc9f67fdd49eb6cacf2df71bbad3" ∧
      userDataHashSum (str "AAAA") ≠ userDataHashSum (EncodeToString (str "AAAA")) := by
  decide!

/-- C1, amended. For every string `s` the fingerprint of `base64Encode(s)` is the
hex SHA-1 of the bytes of `s`; and `userDataHashSum(s) = userDataHashSum(base64Encode(s))`
whenever `s` is empty or does not itself decode as standard base64. -/
theorem C1_fingerprint_encoding_insensitive_unless_base64 (s : GoString) :
    userDataHashSum (EncodeToString s) = hexEncodeToString (sha1Sum s) ∧
      ((s = [] ∨ (DecodeString s).2 ≠ none) →
        userDataHashSum s = userDataHashSum (EncodeToString s)) := by
  refine ⟨userDataHashSum_encode s, ?_⟩
  rintro (rfl | h)
  · rfl
  · rw [userDataHashSum_encode, userDataHashSum_of_err s h]

/-- C1, witness: the raw text `ssh-rsa key` does not decode as base64 (it has a
space and a dash) and has the fingerprint of its encoding. -/
theorem C1_witness_raw_text :
    (str "ssh-rsa key" = [] ∨ (DecodeString (str "ssh-rsa key")).2 ≠ none) ∧
      userDataHashSum (str "ssh-rsa key") =
        userDataHashSum (EncodeToString (str "ssh-rsa key")) :=
  ⟨Or.inr (by decide),
    (C1_fingerprint_encoding_insensitive_unless_base64 (str "ssh-rsa key")).2
      (Or.inr (by decide))⟩

/-- C2. For every string `s` that does not itself decode as standard base64,
`userDataHashSum(base64Encode(s)) = userDataHashSum(s)`, both being the hex
SHA-1 of the bytes of `s`; and `#cloud-config`, whose encoding is
`I2Nsb3VkLWNvbmZpZw==`, has the same fingerprint in both forms. -/
theorem C2_raw_and_encoded_fingerprints_agree :
    (∀ s : GoString, (DecodeString s).2 ≠ none →
      userDataHashSum (EncodeToString s) = userDataHashSum s ∧
        userDataHashSum s = hexEncodeToString (sha1Sum s) ∧
        userDataHashSum (EncodeToString s) = hexEncodeToString (sha1Sum s)) ∧
      EncodeToString (str "#cloud-config") = str "I2Nsb3VkLWNvbmZpZw==" ∧
      userDataHashSum (str "I2Nsb3VkLWNvbmZpZw==") = userDataHashSum (str "#cloud-config") := by
  have hgen : ∀ s : GoString, (DecodeString s).2 ≠ none →
      userDataHashSum (EncodeToString s) = userDataHashSum s ∧
        userDataHashSum s = hexEncodeToString (sha1Sum s) ∧
        userDataHashSum (EncodeToString s) = hexEncodeToString (sha1Sum s) := by
    intro s h
    refine ⟨?_, userDataHashSum_of_err s h, userDataHashSum_encode s⟩
    rw [userDataHashSum_encode, userDataHashSum_of_err s h]
  have henc : EncodeToString (str "#cloud-config") = str "I2Nsb3VkLWNvbmZpZw==" := by decide
  refine ⟨hgen, henc, ?_⟩
  rw [← henc]
  exact (hgen _ (by decide)).1

/-- C2, witness: `#cloud-config` does not decode as base64, and its encoding has
its fingerprint. -/
theorem C2_witness_cloud_config :
    (DecodeString (str "#cloud-config")).2 ≠ none ∧
      userDataHashSum (EncodeToString (str "#cloud-config")) =
        userDataHashSum (str "#cloud-config") :=
  ⟨by decide, (C2_raw_and_encoded_fingerprints_agree.1 (str "#cloud-config") (by decide)).1⟩

/-- C3. Decode undoes encode: `userDataDecode(base64Encode(s)) = s` for every
string `s`, the empty string included; in particular for every `s` that is not
itself valid base64 of something else. -/
theorem C3_userDataDecode_undoes_encode (s : GoString) :
    userDataDecode (EncodeToString s) = s ∧ userDataDecode (EncodeToString []) = [] := by
  refine ⟨?_, rfl⟩
  rw [userDataDecode_of_ok _ (by rw [DecodeString_EncodeToString]), DecodeString_EncodeToString]

/-- C4. For every `s`, `userDataHashSum(s)` is the lowercase hex rendering of the
20-byte SHA-1 digest of the decoded bytes when `s` decodes as standard base64,
and of the bytes of `s` when it does not; it has exactly 40 characters, each in
`0-9` or `a-f`. Being a function of `s`, it depends on nothing else. -/
theorem C4_userDataHashSum_is_hex_sha1 (s : GoString) :
    ((DecodeString s).2 = none →
        userDataHashSum s = hexEncodeToString (sha1Sum (DecodeString s).1)) ∧
      ((DecodeString s).2 ≠ none → userDataHashSum s = hexEncodeToString (sha1Sum s)) ∧
      (∀ v : GoString, (sha1Sum v).length = 20) ∧
      (userDataHashSum s).length = 40 ∧
      ∀ c ∈ userDataHashSum s, isLowerHexDigit c = true := by
  refine ⟨userDataHashSum_of_ok s, userDataHashSum_of_err s, sha1Sum_length, ?_, ?_⟩
  · unfold userDataHashSum
    simp only [hexEncodeToString_length, sha1Sum_length]
  · unfold userDataHashSum
    exact hexEncodeToString_digits _

/-- C4, witness: `I2Nsb3VkLWNvbmZpZw==` decodes, `#cloud-config` does not, and
both have the fingerprint the theorem gives. -/
theorem C4_witness_both_branches :
    ((DecodeString (str "I2Nsb3VkLWNvbmZpZw==")).2 = none ∧
        userDataHashSum (str "I2Nsb3VkLWNvbmZpZw==") =
          hexEncodeToString (sha1Sum (DecodeString (str "I2Nsb3VkLWNvbmZpZw==")).1)) ∧
      ((DecodeString (str "#cloud-config")).2 ≠ none ∧
        userDataHashSum (str "#cloud-config") = hexEncodeToString (sha1Sum (str "#cloud-config"))) :=
  ⟨⟨by decide, (C4_userDataHashSum_is_hex_sha1 (str "I2Nsb3VkLWNvbmZpZw==")).1 (by decide)⟩,
    ⟨by decide, (C4_userDataHashSum_is_hex_sha1 (str "#cloud-config")).2.1 (by decide)⟩⟩

/-- C5, counterexample. The string `QUJD` followed by a line feed contains a byte
outside the base64 alphabet (the line feed, which is not the padding character
either), yet `DecodeString` skips it and reports no error, so `userDataDecode`
returns `ABC` and not the string unchanged. -/
theorem C5_counterexample_trailing_newline_is_decoded :
    LF ∈ str "QUJD" ++ [LF] ∧ LF ∉ encodeStd ∧ LF ≠ padChar ∧
      (DecodeString (str "QUJD" ++ [LF])).2 = none ∧
      userDataDecode (str "QUJD" ++ [LF]) = str "ABC" ∧
      userDataDecode (str "QUJD" ++ [LF]) ≠ str "QUJD" ++ [LF] := by
  decide

/-- C5, amended. For every `s`, `userDataDecode(s)` is the decoded bytes when
`DecodeString` reports no error and `s` unchanged otherwise. Decoding succeeds
exactly when `s`, with every CR and LF removed, is padded base64 text; so `s` is
returned unchanged for the empty string, for any `s` containing a byte that is
neither in the alphabet nor `=`, CR or LF, and for any `s` with wrong padding
(not well padded once CR and LF are removed, in particular when the number of
remaining bytes is not a multiple of four). -/
theorem C5_userDataDecode_decodes_or_passes_through (s : GoString) :
    ((DecodeString s).2 = none → userDataDecode s = (DecodeString s).1) ∧
      ((DecodeString s).2 ≠ none → userDataDecode s = s) ∧
      ((DecodeString s).2 = none ↔ wellPadded (stripNewlines s) = true) ∧
      userDataDecode [] = [] ∧
      ((∃ c ∈ s, c ∉ encodeStd ∧ c ≠ padChar ∧ c ≠ LF ∧ c ≠ CR) → userDataDecode s = s) ∧
      (wellPadded (stripNewlines s) = false → userDataDecode s = s) ∧
      ((stripNewlines s).length % 4 ≠ 0 → userDataDecode s = s) := by
  refine ⟨userDataDecode_of_ok s, userDataDecode_of_err s, DecodeString_ok_iff s, rfl, ?_, ?_, ?_⟩
  · rintro ⟨c, hc, h1, h2, h3, h4⟩
    exact userDataDecode_of_err s (DecodeString_err_of_foreign s c hc h1 h2 h3 h4)
  · intro h
    refine userDataDecode_of_err s ?_
    intro hok
    rw [(DecodeString_ok_iff s).1 hok] at h
    cases h
  · intro h
    exact userDataDecode_of_err s (DecodeString_err_of_length s h)

/-- C5, witness: `I2Nsb3VkLWNvbmZpZw==` decodes to `#cloud-config`; `#cloud-config`
(a byte outside the alphabet), `QQ=` (three bytes, wrong padding) and `=QQQ`
(padding in front) come back unchanged. -/
theorem C5_witness_decoded_and_unchanged :
    ((DecodeString (str "I2Nsb3VkLWNvbmZpZw==")).2 = none ∧
        userDataDecode (str "I2Nsb3VkLWNvbmZpZw==") = str "#cloud-config") ∧
      ((DecodeString (str "#cloud-config")).2 ≠ none ∧
        userDataDecode (str "#cloud-config") = str "#cloud-config") ∧
      ((∃ c ∈ str "#cloud-config", c ∉ encodeStd ∧ c ≠ padChar ∧ c ≠ LF ∧ c ≠ CR) ∧
        userDataDecode (str "#cloud-config") = str "#cloud-config") ∧
      (wellPadded (stripNewlines (str "=QQQ")) = false ∧
        userDataDecode (str "=QQQ") = str "=QQQ") ∧
      ((stripNewlines (str "QQ=")).length % 4 ≠ 0 ∧ userDataDecode (str "QQ=") = str "QQ=") :=
  ⟨⟨by decide,
      ((C5_userDataDecode_decodes_or_passes_through (str "I2Nsb3VkLWNvbmZpZw==")).1
        (by decide)).trans (by decide)⟩,
    ⟨by decide, (C5_userDataDecode_decodes_or_passes_through (str "#cloud-config")).2.1 (by decide)⟩,
    ⟨by decide,
      (C5_userDataDecode_decodes_or_passes_through (str "#cloud-config")).2.2.2.2.1 (by decide)⟩,
    ⟨by decide, (C5_userDataDecode_decodes_or_passes_through (str "=QQQ")).2.2.2.2.2.1 (by decide)⟩,
    ⟨by decide, (C5_userDataDecode_decodes_or_passes_through (str "QQ=")).2.2.2.2.2.2 (by decide)⟩⟩

/-- C10, counterexample. For the empty string nothing is stripped at all:
`base64Encode(base64Encode(s))` is again the empty string, so its fingerprint
`da39a3ee...` is the digest of `s` itself. -/
theorem C10_counterexample_empty_string_digest_is_of_s :
    EncodeToString (EncodeToString ([] : GoString)) = [] ∧
      userDataHashSum (EncodeToString (EncodeToString ([] : GoString))) =
        hexEncodeToString (sha1Sum ([] : GoString)) ∧
      hexEncodeToString (sha1Sum ([] : GoString)) =
        str "da39a3ee5e6b4b0d3255bfef95601890afd80709" ∧
      ¬ (userDataHashSum (EncodeToString (EncodeToString ([] : GoString))) ≠
        hexEncodeToString (sha1Sum ([] : GoString))) := by
  decide!

/-- C10, amended. The hasher and the decoder agree: for every `s`,
`userDataHashSum(s)` is the hex SHA-1 of the bytes of `userDataDecode(s)`; for
the empty string the hasher decodes successfully and the decoder takes its
shortcut, both giving the empty string. Exactly one layer of base64 is stripped:
for every `s` the fingerprint of `base64Encode(base64Encode(s))` is the digest
of `base64Encode(s)`, and for every non-empty `s` those bytes are not `s`
(the encoding is strictly longer); for `s = A` the two digests differ. -/
theorem C10_hasher_agrees_with_decoder :
    (∀ s : GoString, userDataHashSum s = hexEncodeToString (sha1Sum (userDataDecode s))) ∧
      ((DecodeString []).2 = none ∧ userDataDecode [] = [] ∧
        userDataHashSum [] = hexEncodeToString (sha1Sum [])) ∧
      (∀ s : GoString, userDataHashSum (EncodeToString (EncodeToString s)) =
        hexEncodeToString (sha1Sum (EncodeToString s))) ∧
      (∀ s : GoString, s ≠ [] →
        EncodeToString s ≠ s ∧ s.length < (EncodeToString s).length ∧
          userDataDecode (EncodeToString (EncodeToString s)) = EncodeToString s ∧
          userDataDecode (EncodeToString (EncodeToString s)) ≠ s) ∧
      (EncodeToString (EncodeToString (str "A")) = str "UVE9PQ==" ∧
        userDataHashSum (str "UVE9PQ==") = str "b09d0668549f2e50e520aa851245982b35b2bdda" ∧
        hexEncodeToString (sha1Sum (str "A")) = str "6dcd4ce23d88e2ee9568ba546c007c63d9131c1b" ∧
        userDataHashSum (EncodeToString (EncodeToString (str "A"))) ≠
          hexEncodeToString (sha1Sum (str "A"))) := by
  have hdec : ∀ s : GoString, userDataDecode (EncodeToString s) = s := by
    intro s
    rw [userDataDecode_of_ok _ (by rw [DecodeString_EncodeToString]), DecodeString_EncodeToString]
  refine ⟨?_, ⟨rfl, rfl, rfl⟩, fun s => userDataHashSum_encode _, ?_, by decide!⟩
  · intro s
    by_cases h : (DecodeString s).2 = none
    · rw [userDataHashSum_of_ok s h, userDataDecode_of_ok s h]
    · rw [userDataHashSum_of_err s h, userDataDecode_of_err s h]
  · intro s hs
    refine ⟨EncodeToString_ne_self s hs, EncodeToString_length_gt s hs, hdec _, ?_⟩
    rw [hdec]
    exact EncodeToString_ne_self s hs

/-- C10, witness: `A` is non-empty; its encoding `QQ==` differs from it, and the
double encoding `UVE9PQ==` decodes to `QQ==`, not to `A`. -/
theorem C10_witness_one_layer_stripped :
    str "A" ≠ [] ∧ EncodeToString (str "A") = str "QQ==" ∧
      EncodeToString (str "A") ≠ str "A" ∧
      userDataDecode (EncodeToString (EncodeToString (str "A"))) = EncodeToString (str "A") ∧
      userDataDecode (EncodeToString (EncodeToString (str "A"))) ≠ str "A" :=
  ⟨by decide, by decide,
    (C10_hasher_agrees_with_decoder.2.2.2.1 (str "A") (by decide)).1,
    (C10_hasher_agrees_with_decoder.2.2.2.1 (str "A") (by decide)).2.2.1,
    (C10_hasher_agrees_with_decoder.2.2.2.1 (str "A") (by decide)).2.2.2⟩

/-- C6. In the definition `resourceCloudInitCreate` builds and hands to
`CreateAndUpload`, the key list is the fresh definition's list followed by the
single key `k` when `ssh_authorized_key = k` is set and non-empty, and the fresh
definition's list unchanged when the key is absent or empty; so at most one
entry is added. -/
theorem C6_builder_appends_ssh_key_iff_nonempty (B : Backend) (d : ResourceData) :
    (∀ k : GoString, d.attrs "ssh_authorized_key" = some k → k ≠ [] →
        (buildCloudInit B.newCloudInitDef d).1.UserData.SSHAuthorizedKeys =
          B.newCloudInitDef.UserData.SSHAuthorizedKeys ++ [k]) ∧
      ((d.attrs "ssh_authorized_key" = none ∨ d.attrs "ssh_authorized_key" = some []) →
        (buildCloudInit B.newCloudInitDef d).1.UserData.SSHAuthorizedKeys =
          B.newCloudInitDef.UserData.SSHAuthorizedKeys) ∧
      (buildCloudInit B.newCloudInitDef d).1.UserData.SSHAuthorizedKeys.length ≤
        B.newCloudInitDef.UserData.SSHAuthorizedKeys.length + 1 ∧
      (∀ (meta : Client) (v : VirConnection), meta.libvirt = some v →
        ∀ ci : defCloudInit,
          Event.callCreateAndUpload ci v ∈ (resourceCloudInitCreate B d meta).trace ↔
            ci = (buildCloudInit B.newCloudInitDef d).1) := by
  refine ⟨?_, ?_, ?_, ?_⟩
  · intro k hk hne
    have hg := Get_of_some d _ k hk
    have := ((buildCloudInit_keys B.newCloudInitDef d).1 (by rw [hg]; exact hne)).1
    rw [this, hg]
  · intro h
    have hg : d.Get "ssh_authorized_key" = [] := by
      rcases h with h | h
      · exact Get_ssh_of_none d h
      · exact Get_of_some d _ _ h
    exact ((buildCloudInit_keys B.newCloudInitDef d).2 hg).1
  · by_cases hg : d.Get "ssh_authorized_key" = []
    · rw [((buildCloudInit_keys B.newCloudInitDef d).2 hg).1]; omega
    · rw [((buildCloudInit_keys B.newCloudInitDef d).1 hg).1]; simp
  · intro meta v hv ci
    rw [create_trace B d meta v hv]
    constructor
    · intro h
      simp only [List.append_assoc, List.mem_append, List.mem_cons, List.mem_singleton,
        reduceCtorEq, List.not_mem_nil, or_false, false_or, Event.callCreateAndUpload.injEq,
        and_true] at h
      rcases h with h | h | h
      · split at h <;> simp at h
      · exact h
      · split at h <;> simp at h
    · intro h
      subst h
      simp

/-- C6, witness: with the key `ssh-rsa AAAA` set the built list is that one key;
with an empty key it is the fresh, empty list. -/
theorem C6_witness_one_key_or_none :
    (exampleData.attrs "ssh_authorized_key" = some (str "ssh-rsa AAAA") ∧
        str "ssh-rsa AAAA" ≠ [] ∧
        (buildCloudInit exampleBackend.newCloudInitDef exampleData).1.UserData.SSHAuthorizedKeys =
          exampleBackend.newCloudInitDef.UserData.SSHAuthorizedKeys ++ [str "ssh-rsa AAAA"]) ∧
      ((exampleDataNoKey.attrs "ssh_authorized_key" = none ∨
          exampleDataNoKey.attrs "ssh_authorized_key" = some []) ∧
        (buildCloudInit exampleBackend.newCloudInitDef exampleDataNoKey).1.UserData.SSHAuthorizedKeys =
          exampleBackend.newCloudInitDef.UserData.SSHAuthorizedKeys) ∧
      (exampleClient.libvirt = some ⟨1⟩ ∧
        Event.callCreateAndUpload (buildCloudInit exampleBackend.newCloudInitDef exampleData).1 ⟨1⟩ ∈
          (resourceCloudInitCreate exampleBackend exampleData exampleClient).trace) :=
  ⟨⟨by decide, by decide,
      (C6_builder_appends_ssh_key_iff_nonempty exampleBackend exampleData).1 _ (by decide)
        (by decide)⟩,
    ⟨Or.inr (by decide),
      (C6_builder_appends_ssh_key_iff_nonempty exampleBackend exampleDataNoKey).2.1
        (Or.inr (by decide))⟩,
    ⟨rfl,
      ((C6_builder_appends_ssh_key_iff_nonempty exampleBackend exampleData).2.2.2
        exampleClient ⟨1⟩ rfl _).2 rfl⟩⟩

/-- C7, counterexample. With a nil connection and both `user_data` and
`ssh_authorized_key` non-empty, `resourceCloudInitCreate` returns the connection
error after the debug line alone: no warning is emitted and `CreateAndUpload`
is not reached. -/
theorem C7_counterexample_nil_connection_no_warning :
    exampleClientNil.libvirt = none ∧
      exampleData.Get "user_data" ≠ [] ∧ exampleData.Get "ssh_authorized_key" ≠ [] ∧
      (resourceCloudInitCreate exampleBackend exampleData exampleClientNil).trace =
        [Event.log "[DEBUG] creating cloudinit"] ∧
      Event.log warnBoth ∉ (resourceCloudInitCreate exampleBackend exampleData exampleClientNil).trace ∧
      (resourceCloudInitCreate exampleBackend exampleData exampleClientNil).err =
        some ⟨str "The libvirt connection was nil."⟩ := by
  decide

/-- C7, amended. On a live connection the warning is emitted if and only if
`user_data` is non-empty and `ssh_authorized_key` is non-empty; in that case the
built definition has `userDataContent` equal to the `user_data` input and
contains the key, it is the definition handed to `CreateAndUpload`, and create
returns no error when the upload and the read report none. -/
theorem C7_warning_iff_both_inputs_on_live_connection (B : Backend) (d : ResourceData)
    (meta : Client) (v : VirConnection) (hv : meta.libvirt = some v) :
    (Event.log warnBoth ∈ (resourceCloudInitCreate B d meta).trace ↔
        d.Get "user_data" ≠ [] ∧ d.Get "ssh_authorized_key" ≠ []) ∧
      (d.Get "user_data" ≠ [] ∧ d.Get "ssh_authorized_key" ≠ [] →
        (buildCloudInit B.newCloudInitDef d).1.UserDataContent = d.Get "user_data" ∧
          d.Get "ssh_authorized_key" ∈
            (buildCloudInit B.newCloudInitDef d).1.UserData.SSHAuthorizedKeys ∧
          Event.callCreateAndUpload (buildCloudInit B.newCloudInitDef d).1 v ∈
            (resourceCloudInitCreate B d meta).trace ∧
          ((B.CreateAndUpload (buildCloudInit B.newCloudInitDef d).1 v).2 = none →
            (B.newCloudInitDefFromRemoteISO v
              (B.CreateAndUpload (buildCloudInit B.newCloudInitDef d).1 v).1).2 = none →
            (resourceCloudInitCreate B d meta).err = none)) := by
  have hwarn : warnBoth ≠ "[DEBUG] creating cloudinit" := by decide
  refine ⟨?_, ?_⟩
  · rw [create_trace B d meta v hv]
    by_cases hw : d.Get "user_data" ≠ [] ∧ d.Get "ssh_authorized_key" ≠ []
    · simp [hw]
    · simp only [hw, ↓reduceIte, List.append_nil, iff_false]
      intro h
      simp only [List.append_assoc, List.mem_append, List.mem_cons, List.mem_singleton,
        Event.log.injEq, reduceCtorEq, List.not_mem_nil, or_false, false_or] at h
      rcases h with h | h
      · exact hwarn h
      · split at h <;> simp at h
  · intro hw
    refine ⟨rfl, ?_, ?_, ?_⟩
    · rw [((buildCloudInit_keys B.newCloudInitDef d).1 hw.2).1]
      simp
    · rw [create_trace B d meta v hv]
      simp
    · intro hup hrd
      rw [(create_ok B d meta v hv hup).2,
        read_ok B _ meta v hv (by rw [afterUpload_id]; exact hrd)]

/-- C7, witness: on a live connection, with `#cloud-config` as user data and the
key `ssh-rsa AAAA`, the warning is emitted and create returns no error. -/
theorem C7_witness_both_inputs :
    exampleClient.libvirt = some ⟨1⟩ ∧
      (exampleData.Get "user_data" ≠ [] ∧ exampleData.Get "ssh_authorized_key" ≠ []) ∧
      Event.log warnBoth ∈ (resourceCloudInitCreate exampleBackend exampleData exampleClient).trace ∧
      (buildCloudInit exampleBackend.newCloudInitDef exampleData).1.UserDataContent =
        str "#cloud-config" ∧
      (resourceCloudInitCreate exampleBackend exampleData exampleClient).err = none :=
  ⟨rfl, by decide,
    (C7_warning_iff_both_inputs_on_live_connection exampleBackend exampleData exampleClient ⟨1⟩
      rfl).1.2 (by decide),
    ((C7_warning_iff_both_inputs_on_live_connection exampleBackend exampleData exampleClient ⟨1⟩
      rfl).2 (by decide)).1.trans (by decide),
    ((C7_warning_iff_both_inputs_on_live_connection exampleBackend exampleData exampleClient ⟨1⟩
      rfl).2 (by decide)).2.2.2 rfl rfl⟩

/-- C8. Identity persistence: when `CreateAndUpload` succeeds with key `k`, the
id in the resource data is `k` when create returns, partial-state mode is off,
and the read is performed with that id; this holds also when the read fails, in
which case create returns the read's error. When `CreateAndUpload` fails, create
returns that error, leaves the resource data (the id included) untouched and
performs no read. -/
theorem C8_id_recorded_once_upload_succeeds (B : Backend) (d : ResourceData) (meta : Client)
    (v : VirConnection) (hv : meta.libvirt = some v) :
    (∀ k : GoString, B.CreateAndUpload (buildCloudInit B.newCloudInitDef d).1 v = (k, none) →
        (resourceCloudInitCreate B d meta).d.id = k ∧
          (resourceCloudInitCreate B d meta).d.partialMode = false ∧
          Event.callFromRemoteISO v k ∈ (resourceCloudInitCreate B d meta).trace ∧
          ∀ e : GoError, (B.newCloudInitDefFromRemoteISO v k).2 = some e →
            (resourceCloudInitCreate B d meta).err =
                some ⟨str "Error while retrieving remote ISO: " ++ e.msg⟩ ∧
              (resourceCloudInitCreate B d meta).d.id = k) ∧
      (∀ e : GoError, (B.CreateAndUpload (buildCloudInit B.newCloudInitDef d).1 v).2 = some e →
        (resourceCloudInitCreate B d meta).err = some e ∧
          (resourceCloudInitCreate B d meta).d = d ∧
          (resourceCloudInitCreate B d meta).d.id = d.id ∧
          ∀ (v2 : VirConnection) (id : GoString),
            Event.callFromRemoteISO v2 id ∉ (resourceCloudInitCreate B d meta).trace) := by
  constructor
  · intro k hk
    have hup : (B.CreateAndUpload (buildCloudInit B.newCloudInitDef d).1 v).2 = none := by
      rw [hk]
    have hkey : (B.CreateAndUpload (buildCloudInit B.newCloudInitDef d).1 v).1 = k := by
      rw [hk]
    have hid : (resourceCloudInitCreate B d meta).d.id = k := by
      rw [(create_ok B d meta v hv hup).1, read_id, afterUpload_id, hkey]
    refine ⟨hid, ?_, ?_, ?_⟩
    · rw [(create_ok B d meta v hv hup).1, read_partialMode, afterUpload_partialMode]
    · rw [create_trace B d meta v hv]
      simp [hup, hkey]
    · intro e he
      refine ⟨?_, hid⟩
      rw [(create_ok B d meta v hv hup).2, hkey,
        read_err B _ meta v hv e (by rw [afterUpload_id]; exact he)]
  · intro e he
    have h := create_err B d meta v hv e he
    refine ⟨h.2, h.1, by rw [h.1], ?_⟩
    intro v2 id hmem
    rw [create_trace B d meta v hv] at hmem
    simp only [he, reduceCtorEq, ↓reduceIte, List.append_nil, List.append_assoc, List.mem_append,
      List.mem_cons, List.mem_singleton, List.not_mem_nil, or_false, false_or] at hmem
    split at hmem <;> simp at hmem

/-- C8, witness: with an upload that returns `/pool/ci1` and a read that fails,
create returns the read's error with the id `/pool/ci1` recorded; with an upload
that fails, create returns the upload's error and the id stays empty. -/
theorem C8_witness_read_fails_and_upload_fails :
    (exampleClient.libvirt = some ⟨1⟩ ∧
        exampleBackendReadFails.CreateAndUpload
          (buildCloudInit exampleBackendReadFails.newCloudInitDef exampleData).1 ⟨1⟩ =
            (str "/pool/ci1", none) ∧
        (exampleBackendReadFails.newCloudInitDefFromRemoteISO ⟨1⟩ (str "/pool/ci1")).2 =
          some ⟨str "gone"⟩ ∧
        (resourceCloudInitCreate exampleBackendReadFails exampleData exampleClient).d.id =
          str "/pool/ci1" ∧
        (resourceCloudInitCreate exampleBackendReadFails exampleData exampleClient).err =
          some ⟨str "Error while retrieving remote ISO: " ++ str "gone"⟩) ∧
      ((exampleBackendUploadFails.CreateAndUpload
          (buildCloudInit exampleBackendUploadFails.newCloudInitDef exampleData).1 ⟨1⟩).2 =
            some ⟨str "no pool"⟩ ∧
        (resourceCloudInitCreate exampleBackendUploadFails exampleData exampleClient).err =
          some ⟨str "no pool"⟩ ∧
        (resourceCloudInitCreate exampleBackendUploadFails exampleData exampleClient).d.id = []) :=
  ⟨⟨rfl, rfl, rfl,
      ((C8_id_recorded_once_upload_succeeds exampleBackendReadFails exampleData exampleClient ⟨1⟩
        rfl).1 (str "/pool/ci1") rfl).1,
      (((C8_id_recorded_once_upload_succeeds exampleBackendReadFails exampleData exampleClient ⟨1⟩
        rfl).1 (str "/pool/ci1") rfl).2.2.2 ⟨str "gone"⟩ rfl).1⟩,
    ⟨rfl,
      ((C8_id_recorded_once_upload_succeeds exampleBackendUploadFails exampleData exampleClient
        ⟨1⟩ rfl).2 ⟨str "no pool"⟩ rfl).1,
      ((C8_id_recorded_once_upload_succeeds exampleBackendUploadFails exampleData exampleClient
        ⟨1⟩ rfl).2 ⟨str "no pool"⟩ rfl).2.2.1⟩⟩
/-- C9. A failed read is not atomic on state. On a live connection, for every
state and every result `(ci, err)` of `newCloudInitDefFromRemoteISO`: when `err`
is non-nil the read leaves `pool`, `name` and `local_hostname` overwritten with
`ci.PoolName`, `ci.Name` and `ci.Metadata.LocalHostname`, returns the error
`Error while retrieving remote ISO: ` followed by `err`, and leaves
`ssh_authorized_key` and the id unchanged; when `err` is nil it returns no error
and sets `ssh_authorized_key` to the reconstructed key when exactly one key was
reconstructed, leaving it unchanged otherwise. -/
theorem C9_failed_read_still_writes_state (B : Backend) (d : ResourceData) (meta : Client)
    (v : VirConnection) (hv : meta.libvirt = some v) :
    (∀ e : GoError, (B.newCloudInitDefFromRemoteISO v d.id).2 = some e →
        (resourceCloudInitRead B d meta).d.attrs "pool" =
            some (B.newCloudInitDefFromRemoteISO v d.id).1.PoolName ∧
          (resourceCloudInitRead B d meta).d.attrs "name" =
            some (B.newCloudInitDefFromRemoteISO v d.id).1.Name ∧
          (resourceCloudInitRead B d meta).d.attrs "local_hostname" =
            some (B.newCloudInitDefFromRemoteISO v d.id).1.Metadata.LocalHostname ∧
          (resourceCloudInitRead B d meta).err =
            some ⟨str "Error while retrieving remote ISO: " ++ e.msg⟩ ∧
          (resourceCloudInitRead B d meta).d.attrs "ssh_authorized_key" =
            d.attrs "ssh_authorized_key" ∧
          (resourceCloudInitRead B d meta).d.id = d.id) ∧
      ((B.newCloudInitDefFromRemoteISO v d.id).2 = none →
        (resourceCloudInitRead B d meta).err = none ∧
          (∀ k : GoString,
            (B.newCloudInitDefFromRemoteISO v d.id).1.UserData.SSHAuthorizedKeys = [k] →
              (resourceCloudInitRead B d meta).d.attrs "ssh_authorized_key" = some k) ∧
          ((B.newCloudInitDefFromRemoteISO v d.id).1.UserData.SSHAuthorizedKeys.length ≠ 1 →
            (resourceCloudInitRead B d meta).d.attrs "ssh_authorized_key" =
              d.attrs "ssh_authorized_key")) := by
  constructor
  · intro e he
    rw [read_err B d meta v hv e he]
    have h := readWrites_attrs d (B.newCloudInitDefFromRemoteISO v d.id).1
    exact ⟨h.1, h.2.1, h.2.2.1, rfl, h.2.2.2.1, h.2.2.2.2⟩
  · intro he
    rw [read_ok B d meta v hv he]
    refine ⟨rfl, ?_, ?_⟩
    · intro k hk
      simp only [hk, List.length_singleton, ↓reduceIte, List.getD_cons_zero, Set_ssh_attrs]
    · intro hl
      simp only [hl, ↓reduceIte]
      exact (readWrites_attrs d _).2.2.2.1

/-- C9, witness: a failing read on data whose pool is unset leaves the pool
`remote-pool` written, the SSH key as it was, and returns the wrapped error; a
successful read that reconstructs one key sets it. -/
theorem C9_witness_failed_and_successful_read :
    (exampleClient.libvirt = some ⟨1⟩ ∧
        (exampleBackendReadFails.newCloudInitDefFromRemoteISO ⟨1⟩ exampleDataNoKey.id).2 =
          some ⟨str "gone"⟩ ∧
        exampleDataNoKey.attrs "pool" = none ∧
        (resourceCloudInitRead exampleBackendReadFails exampleDataNoKey exampleClient).d.attrs "pool" =
          some (str "remote-pool") ∧
        (resourceCloudInitRead exampleBackendReadFails exampleDataNoKey exampleClient).err =
          some ⟨str "Error while retrieving remote ISO: " ++ str "gone"⟩ ∧
        (resourceCloudInitRead exampleBackendReadFails exampleDataNoKey exampleClient).d.attrs
          "ssh_authorized_key" = some []) ∧
      ((exampleBackend.newCloudInitDefFromRemoteISO ⟨1⟩ exampleDataNoKey.id).2 = none ∧
        (resourceCloudInitRead exampleBackend exampleDataNoKey exampleClient).err = none ∧
        (resourceCloudInitRead exampleBackend exampleDataNoKey exampleClient).d.attrs
          "ssh_authorized_key" = some (str "ssh-rsa AAAA")) :=
  ⟨⟨rfl, rfl, by decide,
      ((C9_failed_read_still_writes_state exampleBackendReadFails exampleDataNoKey exampleClient
        ⟨1⟩ rfl).1 ⟨str "gone"⟩ rfl).1,
      ((C9_failed_read_still_writes_state exampleBackendReadFails exampleDataNoKey exampleClient
        ⟨1⟩ rfl).1 ⟨str "gone"⟩ rfl).2.2.2.1,
      ((C9_failed_read_still_writes_state exampleBackendReadFails exampleDataNoKey exampleClient
        ⟨1⟩ rfl).1 ⟨str "gone"⟩ rfl).2.2.2.2.1.trans (by decide)⟩,
    ⟨rfl,
      ((C9_failed_read_still_writes_state exampleBackend exampleDataNoKey exampleClient ⟨1⟩
        rfl).2 rfl).1,
      ((C9_failed_read_still_writes_state exampleBackend exampleDataNoKey exampleClient ⟨1⟩
        rfl).2 rfl).2.1 _ rfl⟩⟩

end CloudInit
